import Mathlib

/-!
Shallow embedding of the Harmonic Beacon core (harmonic key mapping,
octave borrowing, voice tracking, fundamental smoothing, chorus LFO)
and proofs of the specification claims about it.

Sources embedded: `harmonic_beacon/key_mapper.py`,
`harmonic_beacon/octave_borrower.py`, `harmonic_beacon/polyphony.py`,
`harmonic_beacon/harmonics.py`, `harmonic_beacon/lfo.py` and the
`F1Modulator` / note-on primary-voice logic of `harmonic_beacon/main.py`.
Python floats are modelled by real numbers, Python ints by `ℤ`/`ℕ`,
Python `None` results by `Option`.
-/

open scoped Classical

/-- `harmonic_to_cents` (key_mapper.py): distance of harmonic `n` from the
fundamental in cents, `1200 * log2 n`.  The source raises for `n < 1`;
every call site passes `n ≥ 1`. -/
noncomputable def harmonic_to_cents (n : ℕ) : ℝ :=
  1200 * Real.logb 2 n

/-- The `KeyMapper` construction parameters (key_mapper.py `__init__`).
The lookup table `_mapping` is a deterministic function of these fields,
embedded below as `mappingLookup`. -/
structure KeyMapper where
  f1 : ℝ
  anchor_midi : ℤ
  tolerance_cents : ℝ
  max_harmonic : ℕ
  lowest_midi : ℤ
  highest_midi : ℤ

/-- `key_cents = (midi - anchor_midi) * 100.0` from `_build_mapping`. -/
def key_cents (km : KeyMapper) (midi : ℤ) : ℝ :=
  ((midi - km.anchor_midi : ℤ) : ℝ) * 100

/-- The inner harmonic scan of `KeyMapper._build_mapping` for one key:
iterates `n, n+1, ...` with `fuel` iterations left (the Python loop runs
`n = 1 .. max_harmonic`), stops early when `f1 * n > 20000` (hearing
limit) or, after testing `n`, when `harmonic_cents > key_cents +
tolerance + 1.0`; collects `(n, deviation)` whenever
`|deviation| ≤ tolerance` with `deviation = key_cents - harmonic_cents`. -/
noncomputable def buildMatchesAux (f1 tol c : ℝ) : ℕ → ℕ → List (ℕ × ℝ)
  | _, 0 => []
  | n, fuel + 1 =>
    if 20000 < f1 * (n : ℝ) then []
    else
      let rest : List (ℕ × ℝ) :=
        if c + tol + 1 < harmonic_to_cents n then []
        else buildMatchesAux f1 tol c (n + 1) fuel
      if |c - harmonic_to_cents n| ≤ tol then (n, c - harmonic_to_cents n) :: rest
      else rest

/-- `self._mapping.get(midi_note)` after `_build_mapping`: keys inside
`[lowest_midi, highest_midi]` are stored, mapped to their (nonempty) match
list or to `None` when no harmonic matched; other keys are absent from the
dict, which `dict.get` also reports as `None`. -/
noncomputable def mappingLookup (km : KeyMapper) (midi : ℤ) : Option (List (ℕ × ℝ)) :=
  if km.lowest_midi ≤ midi ∧ midi ≤ km.highest_midi then
    match buildMatchesAux km.f1 km.tolerance_cents (key_cents km midi) 1 km.max_harmonic with
    | [] => none
    | p :: rest => some (p :: rest)
  else none

/-- `HarmonicMatch` (key_mapper.py). -/
structure HarmonicMatch where
  midi_note : ℤ
  harmonic_n : ℕ
  beacon_frequency : ℝ
  deviation_cents : ℝ

/-- `KeyMapper.get_harmonic`: harmonic number of the first stored match. -/
noncomputable def KeyMapper.get_harmonic (km : KeyMapper) (midi_note : ℤ) : Option ℕ :=
  match mappingLookup km midi_note with
  | some ((n, _) :: _) => some n
  | _ => none

/-- `KeyMapper.get_match`: full information of the first stored match. -/
noncomputable def KeyMapper.get_match (km : KeyMapper) (midi_note : ℤ) : Option HarmonicMatch :=
  match mappingLookup km midi_note with
  | some ((n, deviation) :: _) =>
      some ⟨midi_note, n, km.f1 * (n : ℝ), deviation⟩
  | _ => none

/-- `KeyMapper.get_all_matches`: every stored match of the key. -/
noncomputable def KeyMapper.get_all_matches (km : KeyMapper) (midi_note : ℤ) :
    List HarmonicMatch :=
  match mappingLookup km midi_note with
  | some l => l.map (fun p => ⟨midi_note, p.1, km.f1 * (p.1 : ℝ), p.2⟩)
  | none => []

/-- `KeyMapper.get_beacon_frequency`: `f1 * n` of the first stored match. -/
noncomputable def KeyMapper.get_beacon_frequency (km : KeyMapper) (midi_note : ℤ) :
    Option ℝ :=
  match mappingLookup km midi_note with
  | some ((n, _) :: _) => some (km.f1 * (n : ℝ))
  | _ => none

/-- `KeyMapper.rebuild`: overwrite the given parameters and rebuild the
table (the table is a function of the parameters here, so only the
parameters change). -/
def KeyMapper.rebuild (km : KeyMapper) (f1 : Option ℝ) (anchor_midi : Option ℤ)
    (tolerance_cents : Option ℝ) : KeyMapper :=
  { km with
    f1 := f1.getD km.f1
    anchor_midi := anchor_midi.getD km.anchor_midi
    tolerance_cents := tolerance_cents.getD km.tolerance_cents }

/-- `create_default_mapper` (key_mapper.py): `max_harmonic = 128`,
range MIDI 21..108. -/
def create_default_mapper (f1 : ℝ) (anchor_midi : ℤ) (tolerance_cents : ℝ) : KeyMapper :=
  ⟨f1, anchor_midi, tolerance_cents, 128, 21, 108⟩

/-- The mapper of the spec's worked example: f₁ = 54 Hz, anchor MIDI 24,
tolerance 25 cents. -/
def mapper54 : KeyMapper := create_default_mapper 54 24 25

/-- `BorrowedMatch` (octave_borrower.py). -/
structure BorrowedMatch where
  original_midi : ℤ
  borrowed_midi : ℤ
  harmonic_n : ℕ
  beacon_frequency : ℝ
  octaves_borrowed : ℕ

/-- The loop of `OctaveBorrower.borrow`: try `octaves_up = u, u+1, ...`
with `fuel` iterations left (the source runs `range(1, 10)`), stopping
when the borrowed key passes `highest_midi`. -/
noncomputable def borrowAux (km : KeyMapper) (midi_note : ℤ) : ℕ → ℕ → Option BorrowedMatch
  | _, 0 => none
  | u, fuel + 1 =>
    let borrowed_midi := midi_note + 12 * (u : ℤ)
    if km.highest_midi < borrowed_midi then none
    else
      match km.get_match borrowed_midi with
      | some m => some ⟨midi_note, borrowed_midi, m.harmonic_n, m.beacon_frequency, u⟩
      | none => borrowAux km midi_note (u + 1) fuel

/-- `OctaveBorrower.borrow`: `None` when the key has a direct match,
otherwise scan the octaves above. -/
noncomputable def borrow (km : KeyMapper) (midi_note : ℤ) : Option BorrowedMatch :=
  match km.get_harmonic midi_note with
  | some _ => none
  | none => borrowAux km midi_note 1 9

/-- `OctaveBorrower.get_frequency`: direct beacon frequency first, then
the borrowed one. -/
noncomputable def get_frequency (km : KeyMapper) (midi_note : ℤ) : Option ℝ :=
  match km.get_beacon_frequency midi_note with
  | some f => some f
  | none =>
    match borrow km midi_note with
    | some b => some b.beacon_frequency
    | none => none

/-- The primary-voice frequency selection of `HarmonicBeacon._handle_note_on`
(main.py): a direct match plays `current_f1 * n`; a borrowed match plays
`current_f1 * n / 2 ** octaves_borrowed`; no match anywhere plays nothing. -/
noncomputable def primary_voice_frequency (km : KeyMapper) (current_f1 : ℝ) (note : ℤ) :
    Option ℝ :=
  match km.get_match note with
  | some m => some (current_f1 * (m.harmonic_n : ℝ))
  | none =>
    match borrow km note with
    | some b => some (current_f1 * (b.harmonic_n : ℝ) / 2 ^ b.octaves_borrowed)
    | none => none

/-- Modelled from the spec: the "expected register" of a pressed key K —
the pitch key K occupies when the anchor key sounds at `f1`, i.e.
`f1 * 2 ^ ((K - anchor) / 12)`.  No function of the source computes this;
the spec uses it to state where a borrowed, folded-back frequency lands. -/
noncomputable def expected_frequency (km : KeyMapper) (note : ℤ) : ℝ :=
  km.f1 * (2 : ℝ) ^ (((note - km.anchor_midi : ℤ) : ℝ) / 12)

/-- `F1Modulator` (main.py). -/
structure F1Modulator where
  value : ℝ
  target : ℝ
  rate : ℝ
  min_freq : ℝ
  max_freq : ℝ

/-- `F1Modulator.update`: one smoothing step
`value += (target - value) * rate`; reports whether the value moved by
more than 0.01 Hz. -/
def F1Modulator.update (m : F1Modulator) : F1Modulator × Prop :=
  ({ m with value := m.value + (m.target - m.value) * m.rate },
    0.01 < |m.value + (m.target - m.value) * m.rate - m.value|)

/-- `F1Modulator.is_stable`: within 0.01 Hz of the target. -/
def F1Modulator.is_stable (m : F1Modulator) : Prop :=
  |m.value - m.target| < 0.01

/-- Iterated smoothing steps of the `F1Modulator`. -/
def F1Modulator.iterate (m : F1Modulator) : ℕ → F1Modulator
  | 0 => m
  | k + 1 => (F1Modulator.iterate m k).update.1

/-- `VibratoMode` (lfo.py). -/
inductive VibratoMode where
  | smooth : VibratoMode
  | stepped : VibratoMode
  deriving DecidableEq, Repr

/-- `HarmonicLFO` state (lfo.py): phase in [0,1), sweep rate,
candidate frequency list and the reference base frequency. -/
structure HarmonicLFO where
  rate : ℝ
  mode : VibratoMode
  phase : ℝ
  frequencies : List ℝ
  base_frequency : ℝ

/-- `HarmonicLFO.set_harmonics`: an empty candidate list is replaced by
`[440.0]`; the base frequency is the single candidate, or the geometric
mean `(∏ fᵢ) ^ (1/len)` of several. -/
noncomputable def HarmonicLFO.set_harmonics (s : HarmonicLFO) (frequencies : List ℝ) :
    HarmonicLFO :=
  let fr : List ℝ := match frequencies with
    | [] => [440]
    | f :: rest => f :: rest
  let base : ℝ := if fr.length = 1 then fr.headD 440
    else fr.prod ^ ((1 : ℝ) / (fr.length : ℝ))
  { s with frequencies := fr, base_frequency := base }

/-- `HarmonicLFO.update`: with zero or one candidate, return it (or the
440 Hz fallback) without touching the phase; otherwise advance the phase
by `rate * dt` (mod 1), map it through a triangle wave and either step
to a quantized candidate or interpolate between the two bracketing
candidates in log2-frequency space. -/
noncomputable def HarmonicLFO.update (s : HarmonicLFO) (dt : ℝ) : HarmonicLFO × ℝ :=
  if s.frequencies.length ≤ 1 then
    (s, s.frequencies.headD 440)
  else
    let phase := Int.fract (s.phase + s.rate * dt)
    let triangle := 1 - |2 * phase - 1|
    let n := s.frequencies.length
    let s2 := { s with phase := phase }
    match s.mode with
    | VibratoMode.stepped =>
      let index := min (⌊triangle * (n : ℝ)⌋.toNat) (n - 1)
      (s2, s.frequencies.getD index 0)
    | VibratoMode.smooth =>
      let position := triangle * ((n : ℝ) - 1)
      let lower := (⌊position⌋).toNat
      let upper := min (lower + 1) (n - 1)
      let frac := position - (lower : ℝ)
      let logLower := Real.logb 2 (s.frequencies.getD lower 0)
      let logUpper := Real.logb 2 (s.frequencies.getD upper 0)
      (s2, (2 : ℝ) ^ (logLower + frac * (logUpper - logLower)))

/-- `VoicePair` (polyphony.py): the two voices (beacon, playable) that a
single MIDI note triggers in the tracker as written. -/
structure VoicePair where
  midi_note : ℤ
  velocity : ℕ
  beacon_voice_id : ℕ
  playable_voice_id : ℕ
  beacon_frequency : ℝ
  playable_frequency : ℝ
  original_f1 : ℝ
  harmonic_n : ℕ
  transposed_voice_id : ℤ
  transposed_frequency : ℝ

/-- Ordered-dict lookup on the active-note association list. -/
def findPair : List (ℤ × VoicePair) → ℤ → Option VoicePair
  | [], _ => none
  | (k, p) :: rest, note => if k = note then some p else findPair rest note

/-- Ordered-dict in-place value overwrite (used by the retrigger path). -/
def updatePair : List (ℤ × VoicePair) → ℤ → VoicePair → List (ℤ × VoicePair)
  | [], _, _ => []
  | (k, p) :: rest, note, q =>
    if k = note then (k, q) :: rest else (k, p) :: updatePair rest note q

/-- Ordered-dict `pop`. -/
def erasePair : List (ℤ × VoicePair) → ℤ → List (ℤ × VoicePair)
  | [], _ => []
  | (k, p) :: rest, note => if k = note then rest else (k, p) :: erasePair rest note

/-- `VoiceTracker` state (polyphony.py). -/
structure VoiceTracker where
  max_voices : ℕ
  active_notes : List (ℤ × VoicePair)
  next_voice_id : ℕ
  last_played_note : Option ℤ

/-- A fresh `VoiceTracker` (`__init__`). -/
def VoiceTracker.init (max_voices : ℕ) : VoiceTracker :=
  ⟨max_voices, [], 0, none⟩

/-- `VoiceTracker._allocate_voice_id`: hand out `next_voice_id` and step
the counter modulo `max_voices` (bounded wrapping pool). -/
def VoiceTracker.allocate_voice_id (t : VoiceTracker) : ℕ × VoiceTracker :=
  (t.next_voice_id, { t with next_voice_id := (t.next_voice_id + 1) % t.max_voices })

/-- `VoiceTracker.note_on` as written in polyphony.py: an already-active
note is retriggered reusing its two ids; a fresh note allocates exactly
two ids (beacon, playable), stores a `VoicePair` and becomes the last
played note.  Returns the updated tracker and the id pair. -/
def VoiceTracker.note_on (t : VoiceTracker) (midi_note : ℤ) (velocity : ℕ)
    (beacon_freq playable_freq original_f1 : ℝ) (harmonic_n : ℕ) :
    VoiceTracker × (ℕ × ℕ) :=
  match findPair t.active_notes midi_note with
  | some pair =>
    let pair2 := { pair with
      velocity := velocity
      beacon_frequency := beacon_freq
      playable_frequency := playable_freq
      original_f1 := original_f1
      harmonic_n := harmonic_n }
    ({ t with active_notes := updatePair t.active_notes midi_note pair2 },
      (pair.beacon_voice_id, pair.playable_voice_id))
  | none =>
    let a1 := t.allocate_voice_id
    let beacon_id := a1.1
    let a2 := a1.2.allocate_voice_id
    let playable_id := a2.1
    let t2 := a2.2
    ({ t2 with
        active_notes := t2.active_notes ++
          [(midi_note, ⟨midi_note, velocity, beacon_id, playable_id,
            beacon_freq, playable_freq, original_f1, harmonic_n, -1, 0⟩)]
        last_played_note := some midi_note },
      (beacon_id, playable_id))

/-- `VoiceTracker.note_off`: `self._active_notes.pop(midi_note, None)`. -/
def VoiceTracker.note_off (t : VoiceTracker) (midi_note : ℤ) :
    VoiceTracker × Option VoicePair :=
  match findPair t.active_notes midi_note with
  | none => (t, none)
  | some p => ({ t with active_notes := erasePair t.active_notes midi_note }, some p)

/-- `VoiceTracker.active_count`. -/
def VoiceTracker.active_count (t : VoiceTracker) : ℕ :=
  t.active_notes.length

/-- `VoiceTracker.voice_count`: "2 per note" in the source as written. -/
def VoiceTracker.voice_count (t : VoiceTracker) : ℕ :=
  t.active_notes.length * 2

/-- The loop of `octave_reduce` (harmonics.py): halve until below 2,
counting the halvings.  Terminates because the floor strictly drops. -/
def octaveReduceLoop (r : ℚ) : ℚ × ℕ :=
  if h : 2 ≤ r then
    let p := octaveReduceLoop (r / 2)
    (p.1, p.2 + 1)
  else (r, 0)
termination_by (⌊r⌋).toNat
decreasing_by
  have h1 : r / 2 ≤ r - 1 := by linarith
  have h2 : (⌊r / 2⌋ : ℤ) ≤ ⌊r - 1⌋ := Int.floor_le_floor h1
  have h3 : (⌊r - 1⌋ : ℤ) = ⌊r⌋ - 1 := by simp
  have h4 : (2 : ℤ) ≤ ⌊r⌋ := Int.le_floor.mpr (by exact_mod_cast h)
  omega

/-- `octave_reduce` (harmonics.py): domain error (`none`) for `n ≤ 0`,
otherwise the reduced ratio and the octave count. -/
def octave_reduce (n : ℤ) : Option (ℚ × ℕ) :=
  if n ≤ 0 then none else some (octaveReduceLoop (n : ℚ))

/-!  Basic facts about `harmonic_to_cents`. -/

/-- Harmonic 1 sits at 0 cents. -/
lemma harmonic_to_cents_one : harmonic_to_cents 1 = 0 := by
  simp [harmonic_to_cents]

/-- Harmonic `2^k` sits exactly `1200 k` cents up. -/
lemma harmonic_to_cents_pow_two (k : ℕ) : harmonic_to_cents (2 ^ k) = 1200 * k := by
  unfold harmonic_to_cents
  push_cast
  rw [Real.logb_pow, Real.logb_self_eq_one one_lt_two]
  ring

/-- `harmonic_to_cents` grows with the harmonic number. -/
lemma harmonic_to_cents_mono {m n : ℕ} (hm : 1 ≤ m) (hmn : m ≤ n) :
    harmonic_to_cents m ≤ harmonic_to_cents n := by
  unfold harmonic_to_cents
  have h0 : (0 : ℝ) < m := by exact_mod_cast hm
  have h1 : (m : ℝ) ≤ n := by exact_mod_cast hmn
  have := Real.logb_le_logb_of_le one_lt_two h0 h1
  linarith

/-- Decide `harmonic_to_cents n < e` from the integer certificate
`n ^ 1200 < 2 ^ e` (this is `log2 n < e / 1200` cleared of denominators). -/
lemma harmonic_to_cents_lt_of_pow_lt {n e : ℕ} (hn : 1 ≤ n) (h : n ^ 1200 < 2 ^ e) :
    harmonic_to_cents n < e := by
  unfold harmonic_to_cents
  have h0 : (0 : ℝ) < (n : ℝ) ^ (1200 : ℕ) := by
    have : (0 : ℝ) < n := by exact_mod_cast hn
    positivity
  have h1 : ((n : ℝ)) ^ (1200 : ℕ) < (2 : ℝ) ^ (e : ℕ) := by exact_mod_cast h
  have h2 := Real.logb_lt_logb (b := 2) one_lt_two h0 h1
  rw [Real.logb_pow, Real.logb_pow, Real.logb_self_eq_one one_lt_two] at h2
  push_cast at h2 ⊢
  linarith

/-- Decide `harmonic_to_cents n ≤ e` from `n ^ 1200 ≤ 2 ^ e`. -/
lemma harmonic_to_cents_le_of_pow_le {n e : ℕ} (hn : 1 ≤ n) (h : n ^ 1200 ≤ 2 ^ e) :
    harmonic_to_cents n ≤ e := by
  unfold harmonic_to_cents
  have h0 : (0 : ℝ) < (n : ℝ) ^ (1200 : ℕ) := by
    have : (0 : ℝ) < n := by exact_mod_cast hn
    positivity
  have h1 : ((n : ℝ)) ^ (1200 : ℕ) ≤ (2 : ℝ) ^ (e : ℕ) := by exact_mod_cast h
  have h2 := Real.logb_le_logb_of_le one_lt_two h0 h1
  rw [Real.logb_pow, Real.logb_pow, Real.logb_self_eq_one one_lt_two] at h2
  push_cast at h2 ⊢
  linarith

/-- Decide `e ≤ harmonic_to_cents n` from `2 ^ e ≤ n ^ 1200`. -/
lemma le_harmonic_to_cents_of_pow_le {n e : ℕ} (h : 2 ^ e ≤ n ^ 1200) :
    (e : ℝ) ≤ harmonic_to_cents n := by
  unfold harmonic_to_cents
  have h0 : (0 : ℝ) < (2 : ℝ) ^ (e : ℕ) := by positivity
  have h1 : ((2 : ℝ)) ^ (e : ℕ) ≤ (n : ℝ) ^ (1200 : ℕ) := by exact_mod_cast h
  have h2 := Real.logb_le_logb_of_le one_lt_two h0 h1
  rw [Real.logb_pow, Real.logb_pow, Real.logb_self_eq_one one_lt_two] at h2
  push_cast at h2 ⊢
  linarith

/-- Decide `e < harmonic_to_cents n` from `2 ^ e < n ^ 1200`. -/
lemma lt_harmonic_to_cents_of_pow_lt {n e : ℕ} (h : 2 ^ e < n ^ 1200) :
    (e : ℝ) < harmonic_to_cents n := by
  unfold harmonic_to_cents
  have h0 : (0 : ℝ) < (2 : ℝ) ^ (e : ℕ) := by positivity
  have h1 : ((2 : ℝ)) ^ (e : ℕ) < (n : ℝ) ^ (1200 : ℕ) := by exact_mod_cast h
  have h2 := Real.logb_lt_logb (b := 2) one_lt_two h0 h1
  rw [Real.logb_pow, Real.logb_pow, Real.logb_self_eq_one one_lt_two] at h2
  push_cast at h2 ⊢
  linarith

/-!  One-step unfolding of the `_build_mapping` scan. -/

/-- Out of fuel: the Python loop has passed `max_harmonic`. -/
lemma buildMatchesAux_zero (f1 tol c : ℝ) (n : ℕ) :
    buildMatchesAux f1 tol c n 0 = [] := rfl

/-- One unfolding of the scan body. -/
lemma buildMatchesAux_succ (f1 tol c : ℝ) (n fuel : ℕ) :
    buildMatchesAux f1 tol c n (fuel + 1) =
      if 20000 < f1 * (n : ℝ) then []
      else
        let rest : List (ℕ × ℝ) :=
          if c + tol + 1 < harmonic_to_cents n then []
          else buildMatchesAux f1 tol c (n + 1) fuel
        if |c - harmonic_to_cents n| ≤ tol then (n, c - harmonic_to_cents n) :: rest
        else rest := by
  rw [buildMatchesAux]

/-- The scan stops at the hearing limit. -/
lemma buildMatchesAux_freq_stop {f1 tol c : ℝ} {n : ℕ} (fuel : ℕ)
    (h : 20000 < f1 * (n : ℝ)) :
    buildMatchesAux f1 tol c n (fuel + 1) = [] := by
  rw [buildMatchesAux_succ, if_pos h]

/-- The scan records a harmonic inside the tolerance window and goes on. -/
lemma buildMatchesAux_match_step {f1 tol c : ℝ} {n : ℕ} (fuel : ℕ)
    (h1 : ¬ 20000 < f1 * (n : ℝ)) (h2 : |c - harmonic_to_cents n| ≤ tol)
    (h3 : ¬ c + tol + 1 < harmonic_to_cents n) :
    buildMatchesAux f1 tol c n (fuel + 1) =
      (n, c - harmonic_to_cents n) :: buildMatchesAux f1 tol c (n + 1) fuel := by
  rw [buildMatchesAux_succ, if_neg h1]
  simp only [if_neg h3, if_pos h2]

/-- The scan skips a harmonic outside the window and goes on. -/
lemma buildMatchesAux_skip_step {f1 tol c : ℝ} {n : ℕ} (fuel : ℕ)
    (h1 : ¬ 20000 < f1 * (n : ℝ)) (h2 : ¬ |c - harmonic_to_cents n| ≤ tol)
    (h3 : ¬ c + tol + 1 < harmonic_to_cents n) :
    buildMatchesAux f1 tol c n (fuel + 1) = buildMatchesAux f1 tol c (n + 1) fuel := by
  rw [buildMatchesAux_succ, if_neg h1]
  simp only [if_neg h3, if_neg h2]

/-- Once the harmonic cents pass `key_cents + tolerance + 1` the scan stops;
such a harmonic cannot itself match. -/
lemma buildMatchesAux_cents_stop {f1 tol c : ℝ} {n : ℕ} (fuel : ℕ)
    (h1 : ¬ 20000 < f1 * (n : ℝ))
    (h3 : c + tol + 1 < harmonic_to_cents n) :
    buildMatchesAux f1 tol c n (fuel + 1) = [] := by
  have h2 : ¬ |c - harmonic_to_cents n| ≤ tol := by
    intro hab
    have h4 : harmonic_to_cents n - c ≤ |c - harmonic_to_cents n| := by
      rw [abs_sub_comm]
      exact le_abs_self _
    linarith
  rw [buildMatchesAux_succ, if_neg h1]
  simp only [if_pos h3, if_neg h2]

/-- Complete characterization of the scan output: `(n, d)` is produced
exactly when `n` lies in the scanned range, `f1 * n` is below the hearing
limit, `n` is within the tolerance window of the key, and `d` is its
deviation.  In particular neither early break of the Python loop loses a
match. -/
lemma buildMatchesAux_mem (f1 tol c : ℝ) (hf1 : 0 < f1) :
    ∀ (fuel n0 : ℕ), 1 ≤ n0 → ∀ p : ℕ × ℝ,
      (p ∈ buildMatchesAux f1 tol c n0 fuel ↔
        n0 ≤ p.1 ∧ p.1 < n0 + fuel ∧ f1 * (p.1 : ℝ) ≤ 20000 ∧
        |c - harmonic_to_cents p.1| ≤ tol ∧ p.2 = c - harmonic_to_cents p.1) := by
  intro fuel
  induction fuel with
  | zero =>
    intro n0 _ p
    rw [buildMatchesAux_zero]
    simp only [List.not_mem_nil, false_iff]
    rintro ⟨h1, h2, -⟩
    omega
  | succ fuel ih =>
    intro n0 hn0 p
    by_cases hA : 20000 < f1 * (n0 : ℝ)
    · rw [buildMatchesAux_freq_stop fuel hA]
      simp only [List.not_mem_nil, false_iff]
      rintro ⟨h1, -, h3, -, -⟩
      have hcast : (n0 : ℝ) ≤ (p.1 : ℝ) := by exact_mod_cast h1
      have := mul_le_mul_of_nonneg_left hcast hf1.le
      linarith
    · by_cases hB : c + tol + 1 < harmonic_to_cents n0
      · rw [buildMatchesAux_cents_stop fuel hA hB]
        simp only [List.not_mem_nil, false_iff]
        rintro ⟨h1, -, -, h4, -⟩
        have hmono := harmonic_to_cents_mono hn0 h1
        have h5 : harmonic_to_cents p.1 - c ≤ |c - harmonic_to_cents p.1| := by
          rw [abs_sub_comm]
          exact le_abs_self _
        linarith
      · by_cases hC : |c - harmonic_to_cents n0| ≤ tol
        · rw [buildMatchesAux_match_step fuel hA hC hB]
          simp only [List.mem_cons]
          rw [ih (n0 + 1) (by omega) p]
          constructor
          · rintro (rfl | ⟨h1, h2, h3, h4, h5⟩)
            · exact ⟨le_refl _, by omega, not_lt.mp hA, hC, rfl⟩
            · exact ⟨by omega, by omega, h3, h4, h5⟩
          · rintro ⟨h1, h2, h3, h4, h5⟩
            rcases Nat.eq_or_lt_of_le h1 with heq | hlt
            · left
              rw [Prod.ext_iff]
              exact ⟨heq.symm, by rw [h5, ← heq]⟩
            · right
              exact ⟨by omega, by omega, h3, h4, h5⟩
        · rw [buildMatchesAux_skip_step fuel hA hC hB]
          rw [ih (n0 + 1) (by omega) p]
          constructor
          · rintro ⟨h1, h2, h3, h4, h5⟩
            exact ⟨by omega, by omega, h3, h4, h5⟩
          · rintro ⟨h1, h2, h3, h4, h5⟩
            have hne : p.1 ≠ n0 := by
              intro he
              rw [he] at h4
              exact hC h4
            exact ⟨by omega, by omega, h3, h4, h5⟩

/-- Every element the scan emits is at least the starting harmonic. -/
lemma buildMatchesAux_lb {f1 tol c : ℝ} :
    ∀ (fuel n0 : ℕ) (p : ℕ × ℝ), p ∈ buildMatchesAux f1 tol c n0 fuel → n0 ≤ p.1 := by
  intro fuel
  induction fuel with
  | zero =>
    intro n0 p hp
    rw [buildMatchesAux_zero] at hp
    simp at hp
  | succ fuel ih =>
    intro n0 p hp
    by_cases hA : 20000 < f1 * (n0 : ℝ)
    · rw [buildMatchesAux_freq_stop fuel hA] at hp
      simp at hp
    · by_cases hB : c + tol + 1 < harmonic_to_cents n0
      · rw [buildMatchesAux_cents_stop fuel hA hB] at hp
        simp at hp
      · by_cases hC : |c - harmonic_to_cents n0| ≤ tol
        · rw [buildMatchesAux_match_step fuel hA hC hB] at hp
          rcases List.mem_cons.mp hp with rfl | hp2
          · exact le_refl _
          · have := ih (n0 + 1) p hp2
            omega
        · rw [buildMatchesAux_skip_step fuel hA hC hB] at hp
          have := ih (n0 + 1) p hp
          omega

/-- The scan emits its matches in strictly ascending harmonic order. -/
lemma buildMatchesAux_sorted {f1 tol c : ℝ} :
    ∀ (fuel n0 : ℕ),
      (buildMatchesAux f1 tol c n0 fuel).Pairwise (fun p q => p.1 < q.1) := by
  intro fuel
  induction fuel with
  | zero =>
    intro n0
    rw [buildMatchesAux_zero]
    exact List.Pairwise.nil
  | succ fuel ih =>
    intro n0
    by_cases hA : 20000 < f1 * (n0 : ℝ)
    · rw [buildMatchesAux_freq_stop fuel hA]
      exact List.Pairwise.nil
    · by_cases hB : c + tol + 1 < harmonic_to_cents n0
      · rw [buildMatchesAux_cents_stop fuel hA hB]
        exact List.Pairwise.nil
      · by_cases hC : |c - harmonic_to_cents n0| ≤ tol
        · rw [buildMatchesAux_match_step fuel hA hC hB]
          refine List.Pairwise.cons ?_ (ih (n0 + 1))
          intro q hq
          have := buildMatchesAux_lb fuel (n0 + 1) q hq
          omega
        · rw [buildMatchesAux_skip_step fuel hA hC hB]
          exact ih (n0 + 1)

/-- Skip a whole block of harmonics on which the scan neither matches nor
breaks. -/
lemma buildMatchesAux_skip_batch {f1 tol c : ℝ} :
    ∀ (k fuel n0 : ℕ),
      (∀ m : ℕ, n0 ≤ m → m < n0 + k →
        ¬ 20000 < f1 * (m : ℝ) ∧ ¬ |c - harmonic_to_cents m| ≤ tol ∧
        ¬ c + tol + 1 < harmonic_to_cents m) →
      buildMatchesAux f1 tol c n0 (k + fuel) = buildMatchesAux f1 tol c (n0 + k) fuel := by
  intro k
  induction k with
  | zero =>
    intro fuel n0 _
    simp
  | succ k ih =>
    intro fuel n0 h
    obtain ⟨h1, h2, h3⟩ := h n0 (le_refl _) (by omega)
    have hstep : buildMatchesAux f1 tol c n0 (k + 1 + fuel) =
        buildMatchesAux f1 tol c (n0 + 1) (k + fuel) := by
      have he : k + 1 + fuel = (k + fuel) + 1 := by omega
      rw [he]
      exact buildMatchesAux_skip_step (k + fuel) h1 h2 h3
    have hrest := ih fuel (n0 + 1) (by
      intro m hm1 hm2
      exact h m (by omega) (by omega))
    rw [hstep, hrest]
    have he2 : n0 + 1 + k = n0 + (k + 1) := by omega
    rw [he2]

/-!  From per-key scans to the stored mapping. -/

/-- A key in range whose scan produced matches is stored with them. -/
lemma mappingLookup_eq_some {km : KeyMapper} {midi : ℤ} {p : ℕ × ℝ} {rest : List (ℕ × ℝ)}
    (h1 : km.lowest_midi ≤ midi) (h2 : midi ≤ km.highest_midi)
    (hscan : buildMatchesAux km.f1 km.tolerance_cents (key_cents km midi) 1
      km.max_harmonic = p :: rest) :
    mappingLookup km midi = some (p :: rest) := by
  unfold mappingLookup
  rw [if_pos ⟨h1, h2⟩, hscan]

/-- A key in range whose scan produced nothing is reported absent. -/
lemma mappingLookup_eq_none {km : KeyMapper} {midi : ℤ}
    (h1 : km.lowest_midi ≤ midi) (h2 : midi ≤ km.highest_midi)
    (hscan : buildMatchesAux km.f1 km.tolerance_cents (key_cents km midi) 1
      km.max_harmonic = []) :
    mappingLookup km midi = none := by
  unfold mappingLookup
  rw [if_pos ⟨h1, h2⟩, hscan]

/-- For an in-range key, absence from the mapping says exactly that the
scan found nothing. -/
lemma mappingLookup_none_iff {km : KeyMapper} {midi : ℤ}
    (h1 : km.lowest_midi ≤ midi) (h2 : midi ≤ km.highest_midi) :
    mappingLookup km midi = none ↔
      buildMatchesAux km.f1 km.tolerance_cents (key_cents km midi) 1
        km.max_harmonic = [] := by
  unfold mappingLookup
  rw [if_pos ⟨h1, h2⟩]
  cases buildMatchesAux km.f1 km.tolerance_cents (key_cents km midi) 1 km.max_harmonic with
  | nil => simp
  | cons p rest => simp

/-- For an in-range key, the stored list is exactly the scan output. -/
lemma mappingLookup_some_iff {km : KeyMapper} {midi : ℤ} {l : List (ℕ × ℝ)}
    (h1 : km.lowest_midi ≤ midi) (h2 : midi ≤ km.highest_midi) :
    mappingLookup km midi = some l ↔
      (buildMatchesAux km.f1 km.tolerance_cents (key_cents km midi) 1
        km.max_harmonic = l ∧ l ≠ []) := by
  unfold mappingLookup
  rw [if_pos ⟨h1, h2⟩]
  cases hs : buildMatchesAux km.f1 km.tolerance_cents (key_cents km midi) 1
      km.max_harmonic with
  | nil =>
    simp only [reduceCtorEq, false_iff, not_and]
    intro hl
    rw [← hl]
    simp
  | cons p rest =>
    constructor
    · intro h
      have : p :: rest = l := by
        injection h
      exact ⟨this, by rw [← this]; simp⟩
    · rintro ⟨hl, -⟩
      rw [← hl]

/-!  Numeric certificates for the concrete harmonics. -/

/-- Harmonic 2 sits at exactly 1200 cents. -/
lemma hc_two : harmonic_to_cents 2 = 1200 := by
  have h := harmonic_to_cents_pow_two 1
  norm_num at h
  exact h

/-- Harmonic 4 sits at exactly 2400 cents. -/
lemma hc_four : harmonic_to_cents 4 = 2400 := by
  have h := harmonic_to_cents_pow_two 2
  norm_num at h
  exact h

/-- Harmonic 8 sits at exactly 3600 cents. -/
lemma hc_eight : harmonic_to_cents 8 = 3600 := by
  have h := harmonic_to_cents_pow_two 3
  norm_num at h
  exact h

/-- Harmonic 128 sits at exactly 8400 cents. -/
lemma hc_one_two_eight : harmonic_to_cents 128 = 8400 := by
  have h := harmonic_to_cents_pow_two 7
  norm_num at h
  exact h

/-- Harmonic 3 (≈ 1901.96 cents) is above 1875 cents. -/
lemma hc_three_lb : (1875 : ℝ) ≤ harmonic_to_cents 3 := by
  have h := le_harmonic_to_cents_of_pow_le (n := 3) (e := 1875) (by norm_num)
  exact_mod_cast h

/-- Harmonic 3 is below 1925 cents. -/
lemma hc_three_ub : harmonic_to_cents 3 ≤ 1925 := by
  have h := harmonic_to_cents_le_of_pow_le (n := 3) (e := 1925) (by norm_num) (by norm_num)
  exact_mod_cast h

/-- Harmonic 5 (≈ 2786.31 cents) is above 2775 cents. -/
lemma hc_five_lb : (2775 : ℝ) ≤ harmonic_to_cents 5 := by
  have h := le_harmonic_to_cents_of_pow_le (n := 5) (e := 2775) (by norm_num)
  exact_mod_cast h

/-- Harmonic 5 is below 2825 cents. -/
lemma hc_five_ub : harmonic_to_cents 5 ≤ 2825 := by
  have h := harmonic_to_cents_le_of_pow_le (n := 5) (e := 2825) (by norm_num) (by norm_num)
  exact_mod_cast h

/-- Harmonic 6 (≈ 3101.96 cents) is above 2826 cents. -/
lemma hc_six_lb : (2826 : ℝ) < harmonic_to_cents 6 := by
  have h := lt_harmonic_to_cents_of_pow_lt (n := 6) (e := 2826) (by norm_num)
  exact_mod_cast h

/-- Harmonic 6 is below 3365 cents. -/
lemma hc_six_ub : harmonic_to_cents 6 < 3365 := by
  have h := harmonic_to_cents_lt_of_pow_lt (n := 6) (e := 3365) (by norm_num) (by norm_num)
  exact_mod_cast h

/-- Harmonic 7 (≈ 3368.83 cents) is above 3365 cents. -/
lemma hc_seven_lb : (3365 : ℝ) ≤ harmonic_to_cents 7 := by
  have h := le_harmonic_to_cents_of_pow_le (n := 7) (e := 3365) (by norm_num)
  exact_mod_cast h

/-- Harmonic 7 is below 3375 cents. -/
lemma hc_seven_ub : harmonic_to_cents 7 < 3375 := by
  have h := harmonic_to_cents_lt_of_pow_lt (n := 7) (e := 3375) (by norm_num) (by norm_num)
  exact_mod_cast h

/-- Harmonic 7 is below 3435 cents. -/
lemma hc_seven_ub2 : harmonic_to_cents 7 ≤ 3435 := by
  linarith [hc_seven_ub]

/-- Harmonic 126 (≈ 8372.74 cents) is below 8375 cents. -/
lemma hc_padfin_ub : harmonic_to_cents 126 < 8375 := by
  have h := harmonic_to_cents_lt_of_pow_lt (n := 126) (e := 8375) (by norm_num) (by norm_num)
  exact_mod_cast h

/-- Harmonic 127 (≈ 8386.42 cents) is above 8375 cents. -/
lemma hc_semifin_lb : (8375 : ℝ) ≤ harmonic_to_cents 127 := by
  have h := le_harmonic_to_cents_of_pow_le (n := 127) (e := 8375) (by norm_num)
  exact_mod_cast h

/-- Harmonic 127 is below 8400 cents (so its deviation at MIDI 108 is
strictly positive). -/
lemma hc_semifin_ub : harmonic_to_cents 127 < 8400 := by
  have h := harmonic_to_cents_lt_of_pow_lt (n := 127) (e := 8400) (by norm_num) (by norm_num)
  exact_mod_cast h

/-!  The concrete scans of the spec's worked example (f₁ = 54 Hz,
anchor MIDI 24). -/

/-- Key 24 (0 cents): only harmonic 1 matches, exactly. -/
lemma scan_m54_24 : buildMatchesAux 54 25 0 1 128 = [(1, 0)] := by
  have s1 : buildMatchesAux 54 25 0 1 128 =
      (1, (0 : ℝ) - harmonic_to_cents 1) :: buildMatchesAux 54 25 0 2 127 := by
    show buildMatchesAux 54 25 0 1 (127 + 1) =
      (1, (0 : ℝ) - harmonic_to_cents 1) :: buildMatchesAux 54 25 0 (1 + 1) 127
    exact buildMatchesAux_match_step 127 (by norm_num)
      (by rw [harmonic_to_cents_one]; norm_num)
      (by rw [harmonic_to_cents_one]; norm_num)
  have s2 : buildMatchesAux 54 25 0 2 127 = [] := by
    show buildMatchesAux 54 25 0 2 (126 + 1) = []
    exact buildMatchesAux_cents_stop 126 (by norm_num) (by rw [hc_two]; norm_num)
  rw [s1, s2, harmonic_to_cents_one]
  norm_num

/-- Key 36 (1200 cents): only harmonic 2 matches, exactly. -/
lemma scan_m54_36 : buildMatchesAux 54 25 1200 1 128 = [(2, 0)] := by
  have s1 : buildMatchesAux 54 25 1200 1 128 = buildMatchesAux 54 25 1200 2 127 := by
    show buildMatchesAux 54 25 1200 1 (127 + 1) = buildMatchesAux 54 25 1200 (1 + 1) 127
    refine buildMatchesAux_skip_step 127 (by norm_num) ?_ ?_
    · rw [harmonic_to_cents_one]
      norm_num
    · rw [harmonic_to_cents_one]
      norm_num
  have s2 : buildMatchesAux 54 25 1200 2 127 =
      (2, (1200 : ℝ) - harmonic_to_cents 2) :: buildMatchesAux 54 25 1200 3 126 := by
    show buildMatchesAux 54 25 1200 2 (126 + 1) =
      (2, (1200 : ℝ) - harmonic_to_cents 2) :: buildMatchesAux 54 25 1200 (2 + 1) 126
    exact buildMatchesAux_match_step 126 (by norm_num)
      (by rw [hc_two]; norm_num) (by rw [hc_two]; norm_num)
  have s3 : buildMatchesAux 54 25 1200 3 126 = [] := by
    show buildMatchesAux 54 25 1200 3 (125 + 1) = []
    exact buildMatchesAux_cents_stop 125 (by norm_num) (by linarith [hc_three_lb])
  rw [s1, s2, s3, hc_two]
  norm_num

/-- Key 43 (1900 cents): only harmonic 3 matches (≈ −1.96 cents). -/
lemma scan_m54_43 :
    buildMatchesAux 54 25 1900 1 128 = [(3, 1900 - harmonic_to_cents 3)] := by
  have s1 : buildMatchesAux 54 25 1900 1 128 = buildMatchesAux 54 25 1900 2 127 := by
    show buildMatchesAux 54 25 1900 1 (127 + 1) = buildMatchesAux 54 25 1900 (1 + 1) 127
    refine buildMatchesAux_skip_step 127 (by norm_num) ?_ ?_
    · rw [harmonic_to_cents_one]
      norm_num
    · rw [harmonic_to_cents_one]
      norm_num
  have s2 : buildMatchesAux 54 25 1900 2 127 = buildMatchesAux 54 25 1900 3 126 := by
    show buildMatchesAux 54 25 1900 2 (126 + 1) = buildMatchesAux 54 25 1900 (2 + 1) 126
    refine buildMatchesAux_skip_step 126 (by norm_num) ?_ ?_
    · rw [hc_two]
      norm_num
    · rw [hc_two]
      norm_num
  have s3 : buildMatchesAux 54 25 1900 3 126 =
      (3, (1900 : ℝ) - harmonic_to_cents 3) :: buildMatchesAux 54 25 1900 4 125 := by
    show buildMatchesAux 54 25 1900 3 (125 + 1) =
      (3, (1900 : ℝ) - harmonic_to_cents 3) :: buildMatchesAux 54 25 1900 (3 + 1) 125
    refine buildMatchesAux_match_step 125 (by norm_num) ?_ ?_
    · rw [abs_le]
      constructor
      · linarith [hc_three_ub]
      · linarith [hc_three_lb]
    · intro habs
      linarith [hc_three_ub]
  have s4 : buildMatchesAux 54 25 1900 4 125 = [] := by
    show buildMatchesAux 54 25 1900 4 (124 + 1) = []
    exact buildMatchesAux_cents_stop 124 (by norm_num) (by rw [hc_four]; norm_num)
  rw [s1, s2, s3, s4]

/-- Key 48 (2400 cents): only harmonic 4 matches, exactly. -/
lemma scan_m54_48 : buildMatchesAux 54 25 2400 1 128 = [(4, 0)] := by
  have s1 : buildMatchesAux 54 25 2400 1 128 = buildMatchesAux 54 25 2400 2 127 := by
    show buildMatchesAux 54 25 2400 1 (127 + 1) = buildMatchesAux 54 25 2400 (1 + 1) 127
    refine buildMatchesAux_skip_step 127 (by norm_num) ?_ ?_
    · rw [harmonic_to_cents_one]
      norm_num
    · rw [harmonic_to_cents_one]
      norm_num
  have s2 : buildMatchesAux 54 25 2400 2 127 = buildMatchesAux 54 25 2400 3 126 := by
    show buildMatchesAux 54 25 2400 2 (126 + 1) = buildMatchesAux 54 25 2400 (2 + 1) 126
    refine buildMatchesAux_skip_step 126 (by norm_num) ?_ ?_
    · rw [hc_two]
      norm_num
    · rw [hc_two]
      norm_num
  have s3 : buildMatchesAux 54 25 2400 3 126 = buildMatchesAux 54 25 2400 4 125 := by
    show buildMatchesAux 54 25 2400 3 (125 + 1) = buildMatchesAux 54 25 2400 (3 + 1) 125
    refine buildMatchesAux_skip_step 125 (by norm_num) ?_ ?_
    · intro habs
      have h5 : (2400 : ℝ) - harmonic_to_cents 3 ≤ |2400 - harmonic_to_cents 3| :=
        le_abs_self _
      linarith [hc_three_ub]
    · intro habs
      linarith [hc_three_ub]
  have s4 : buildMatchesAux 54 25 2400 4 125 =
      (4, (2400 : ℝ) - harmonic_to_cents 4) :: buildMatchesAux 54 25 2400 5 124 := by
    show buildMatchesAux 54 25 2400 4 (124 + 1) =
      (4, (2400 : ℝ) - harmonic_to_cents 4) :: buildMatchesAux 54 25 2400 (4 + 1) 124
    exact buildMatchesAux_match_step 124 (by norm_num)
      (by rw [hc_four]; norm_num) (by rw [hc_four]; norm_num)
  have s5 : buildMatchesAux 54 25 2400 5 124 = [] := by
    show buildMatchesAux 54 25 2400 5 (123 + 1) = []
    exact buildMatchesAux_cents_stop 123 (by norm_num) (by linarith [hc_five_lb])
  rw [s1, s2, s3, s4, s5, hc_four]
  norm_num

/-- Key 52 (2800 cents): only harmonic 5 matches (≈ +13.69 cents). -/
lemma scan_m54_52 :
    buildMatchesAux 54 25 2800 1 128 = [(5, 2800 - harmonic_to_cents 5)] := by
  have s1 : buildMatchesAux 54 25 2800 1 128 = buildMatchesAux 54 25 2800 2 127 := by
    show buildMatchesAux 54 25 2800 1 (127 + 1) = buildMatchesAux 54 25 2800 (1 + 1) 127
    refine buildMatchesAux_skip_step 127 (by norm_num) ?_ ?_
    · rw [harmonic_to_cents_one]
      norm_num
    · rw [harmonic_to_cents_one]
      norm_num
  have s2 : buildMatchesAux 54 25 2800 2 127 = buildMatchesAux 54 25 2800 3 126 := by
    show buildMatchesAux 54 25 2800 2 (126 + 1) = buildMatchesAux 54 25 2800 (2 + 1) 126
    refine buildMatchesAux_skip_step 126 (by norm_num) ?_ ?_
    · rw [hc_two]
      norm_num
    · rw [hc_two]
      norm_num
  have s3 : buildMatchesAux 54 25 2800 3 126 = buildMatchesAux 54 25 2800 4 125 := by
    show buildMatchesAux 54 25 2800 3 (125 + 1) = buildMatchesAux 54 25 2800 (3 + 1) 125
    refine buildMatchesAux_skip_step 125 (by norm_num) ?_ ?_
    · intro habs
      have h5 : (2800 : ℝ) - harmonic_to_cents 3 ≤ |2800 - harmonic_to_cents 3| :=
        le_abs_self _
      linarith [hc_three_ub]
    · intro habs
      linarith [hc_three_ub]
  have s4 : buildMatchesAux 54 25 2800 4 125 = buildMatchesAux 54 25 2800 5 124 := by
    show buildMatchesAux 54 25 2800 4 (124 + 1) = buildMatchesAux 54 25 2800 (4 + 1) 124
    refine buildMatchesAux_skip_step 124 (by norm_num) ?_ ?_
    · rw [hc_four]
      norm_num
    · rw [hc_four]
      norm_num
  have s5 : buildMatchesAux 54 25 2800 5 124 =
      (5, (2800 : ℝ) - harmonic_to_cents 5) :: buildMatchesAux 54 25 2800 6 123 := by
    show buildMatchesAux 54 25 2800 5 (123 + 1) =
      (5, (2800 : ℝ) - harmonic_to_cents 5) :: buildMatchesAux 54 25 2800 (5 + 1) 123
    refine buildMatchesAux_match_step 123 (by norm_num) ?_ ?_
    · rw [abs_le]
      constructor
      · linarith [hc_five_ub]
      · linarith [hc_five_lb]
    · intro habs
      linarith [hc_five_ub]
  have s6 : buildMatchesAux 54 25 2800 6 123 = [] := by
    show buildMatchesAux 54 25 2800 6 (122 + 1) = []
    exact buildMatchesAux_cents_stop 122 (by norm_num) (by linarith [hc_six_lb])
  rw [s1, s2, s3, s4, s5, s6]

/-- Key 58 (3400 cents) at 25 cents tolerance: no harmonic matches
(harmonic 7 misses by ≈ 31 cents). -/
lemma scan_m54_58 : buildMatchesAux 54 25 3400 1 128 = [] := by
  have s1 : buildMatchesAux 54 25 3400 1 128 = buildMatchesAux 54 25 3400 2 127 := by
    show buildMatchesAux 54 25 3400 1 (127 + 1) = buildMatchesAux 54 25 3400 (1 + 1) 127
    refine buildMatchesAux_skip_step 127 (by norm_num) ?_ ?_
    · rw [harmonic_to_cents_one]
      norm_num
    · rw [harmonic_to_cents_one]
      norm_num
  have s2 : buildMatchesAux 54 25 3400 2 127 = buildMatchesAux 54 25 3400 3 126 := by
    show buildMatchesAux 54 25 3400 2 (126 + 1) = buildMatchesAux 54 25 3400 (2 + 1) 126
    refine buildMatchesAux_skip_step 126 (by norm_num) ?_ ?_
    · rw [hc_two]
      norm_num
    · rw [hc_two]
      norm_num
  have s3 : buildMatchesAux 54 25 3400 3 126 = buildMatchesAux 54 25 3400 4 125 := by
    show buildMatchesAux 54 25 3400 3 (125 + 1) = buildMatchesAux 54 25 3400 (3 + 1) 125
    refine buildMatchesAux_skip_step 125 (by norm_num) ?_ ?_
    · intro habs
      have h5 : (3400 : ℝ) - harmonic_to_cents 3 ≤ |3400 - harmonic_to_cents 3| :=
        le_abs_self _
      linarith [hc_three_ub]
    · intro habs
      linarith [hc_three_ub]
  have s4 : buildMatchesAux 54 25 3400 4 125 = buildMatchesAux 54 25 3400 5 124 := by
    show buildMatchesAux 54 25 3400 4 (124 + 1) = buildMatchesAux 54 25 3400 (4 + 1) 124
    refine buildMatchesAux_skip_step 124 (by norm_num) ?_ ?_
    · rw [hc_four]
      norm_num
    · rw [hc_four]
      norm_num
  have s5 : buildMatchesAux 54 25 3400 5 124 = buildMatchesAux 54 25 3400 6 123 := by
    show buildMatchesAux 54 25 3400 5 (123 + 1) = buildMatchesAux 54 25 3400 (5 + 1) 123
    refine buildMatchesAux_skip_step 123 (by norm_num) ?_ ?_
    · intro habs
      have h5 : (3400 : ℝ) - harmonic_to_cents 5 ≤ |3400 - harmonic_to_cents 5| :=
        le_abs_self _
      linarith [hc_five_ub]
    · intro habs
      linarith [hc_five_ub]
  have s6 : buildMatchesAux 54 25 3400 6 123 = buildMatchesAux 54 25 3400 7 122 := by
    show buildMatchesAux 54 25 3400 6 (122 + 1) = buildMatchesAux 54 25 3400 (6 + 1) 122
    refine buildMatchesAux_skip_step 122 (by norm_num) ?_ ?_
    · intro habs
      have h5 : (3400 : ℝ) - harmonic_to_cents 6 ≤ |3400 - harmonic_to_cents 6| :=
        le_abs_self _
      linarith [hc_six_ub]
    · intro habs
      linarith [hc_six_ub]
  have s7 : buildMatchesAux 54 25 3400 7 122 = buildMatchesAux 54 25 3400 8 121 := by
    show buildMatchesAux 54 25 3400 7 (121 + 1) = buildMatchesAux 54 25 3400 (7 + 1) 121
    refine buildMatchesAux_skip_step 121 (by norm_num) ?_ ?_
    · intro habs
      have h5 : (3400 : ℝ) - harmonic_to_cents 7 ≤ |3400 - harmonic_to_cents 7| :=
        le_abs_self _
      linarith [hc_seven_ub]
    · intro habs
      linarith [hc_seven_ub]
  have s8 : buildMatchesAux 54 25 3400 8 121 = [] := by
    show buildMatchesAux 54 25 3400 8 (120 + 1) = []
    exact buildMatchesAux_cents_stop 120 (by norm_num) (by rw [hc_eight]; norm_num)
  rw [s1, s2, s3, s4, s5, s6, s7, s8]

/-- Key 58 (3400 cents) at 35 cents tolerance: harmonic 7 matches
(≈ +31.17 cents). -/
lemma scan_m54_58_t35 :
    buildMatchesAux 54 35 3400 1 128 = [(7, 3400 - harmonic_to_cents 7)] := by
  have s1 : buildMatchesAux 54 35 3400 1 128 = buildMatchesAux 54 35 3400 2 127 := by
    show buildMatchesAux 54 35 3400 1 (127 + 1) = buildMatchesAux 54 35 3400 (1 + 1) 127
    refine buildMatchesAux_skip_step 127 (by norm_num) ?_ ?_
    · rw [harmonic_to_cents_one]
      norm_num
    · rw [harmonic_to_cents_one]
      norm_num
  have s2 : buildMatchesAux 54 35 3400 2 127 = buildMatchesAux 54 35 3400 3 126 := by
    show buildMatchesAux 54 35 3400 2 (126 + 1) = buildMatchesAux 54 35 3400 (2 + 1) 126
    refine buildMatchesAux_skip_step 126 (by norm_num) ?_ ?_
    · rw [hc_two]
      norm_num
    · rw [hc_two]
      norm_num
  have s3 : buildMatchesAux 54 35 3400 3 126 = buildMatchesAux 54 35 3400 4 125 := by
    show buildMatchesAux 54 35 3400 3 (125 + 1) = buildMatchesAux 54 35 3400 (3 + 1) 125
    refine buildMatchesAux_skip_step 125 (by norm_num) ?_ ?_
    · intro habs
      have h5 : (3400 : ℝ) - harmonic_to_cents 3 ≤ |3400 - harmonic_to_cents 3| :=
        le_abs_self _
      linarith [hc_three_ub]
    · intro habs
      linarith [hc_three_ub]
  have s4 : buildMatchesAux 54 35 3400 4 125 = buildMatchesAux 54 35 3400 5 124 := by
    show buildMatchesAux 54 35 3400 4 (124 + 1) = buildMatchesAux 54 35 3400 (4 + 1) 124
    refine buildMatchesAux_skip_step 124 (by norm_num) ?_ ?_
    · rw [hc_four]
      norm_num
    · rw [hc_four]
      norm_num
  have s5 : buildMatchesAux 54 35 3400 5 124 = buildMatchesAux 54 35 3400 6 123 := by
    show buildMatchesAux 54 35 3400 5 (123 + 1) = buildMatchesAux 54 35 3400 (5 + 1) 123
    refine buildMatchesAux_skip_step 123 (by norm_num) ?_ ?_
    · intro habs
      have h5 : (3400 : ℝ) - harmonic_to_cents 5 ≤ |3400 - harmonic_to_cents 5| :=
        le_abs_self _
      linarith [hc_five_ub]
    · intro habs
      linarith [hc_five_ub]
  have s6 : buildMatchesAux 54 35 3400 6 123 = buildMatchesAux 54 35 3400 7 122 := by
    show buildMatchesAux 54 35 3400 6 (122 + 1) = buildMatchesAux 54 35 3400 (6 + 1) 122
    refine buildMatchesAux_skip_step 122 (by norm_num) ?_ ?_
    · intro habs
      have h5 : (3400 : ℝ) - harmonic_to_cents 6 ≤ |3400 - harmonic_to_cents 6| :=
        le_abs_self _
      linarith [hc_six_ub]
    · intro habs
      linarith [hc_six_ub]
  have s7 : buildMatchesAux 54 35 3400 7 122 =
      (7, (3400 : ℝ) - harmonic_to_cents 7) :: buildMatchesAux 54 35 3400 8 121 := by
    show buildMatchesAux 54 35 3400 7 (121 + 1) =
      (7, (3400 : ℝ) - harmonic_to_cents 7) :: buildMatchesAux 54 35 3400 (7 + 1) 121
    refine buildMatchesAux_match_step 121 (by norm_num) ?_ ?_
    · rw [abs_le]
      constructor
      · linarith [hc_seven_ub2]
      · linarith [hc_seven_lb]
    · intro habs
      linarith [hc_seven_ub2]
  have s8 : buildMatchesAux 54 35 3400 8 121 = [] := by
    show buildMatchesAux 54 35 3400 8 (120 + 1) = []
    exact buildMatchesAux_cents_stop 120 (by norm_num) (by rw [hc_eight]; norm_num)
  rw [s1, s2, s3, s4, s5, s6, s7, s8]

/-- Key 31 (700 cents): no harmonic matches (used as the borrow witness). -/
lemma scan_m54_31 : buildMatchesAux 54 25 700 1 128 = [] := by
  have s1 : buildMatchesAux 54 25 700 1 128 = buildMatchesAux 54 25 700 2 127 := by
    show buildMatchesAux 54 25 700 1 (127 + 1) = buildMatchesAux 54 25 700 (1 + 1) 127
    refine buildMatchesAux_skip_step 127 (by norm_num) ?_ ?_
    · rw [harmonic_to_cents_one]
      norm_num
    · rw [harmonic_to_cents_one]
      norm_num
  have s2 : buildMatchesAux 54 25 700 2 127 = [] := by
    show buildMatchesAux 54 25 700 2 (126 + 1) = []
    exact buildMatchesAux_cents_stop 126 (by norm_num) (by rw [hc_two]; norm_num)
  rw [s1, s2]

/-- Key 108 (8400 cents): harmonics 127 and 128 both match; 127 first
(≈ +13.58 cents), then 128 (exact). -/
lemma scan_m54_108 :
    buildMatchesAux 54 25 8400 1 128 =
      [(127, 8400 - harmonic_to_cents 127), (128, 0)] := by
  have hbatch : buildMatchesAux 54 25 8400 1 128 = buildMatchesAux 54 25 8400 127 2 := by
    show buildMatchesAux 54 25 8400 1 (126 + 2) = buildMatchesAux 54 25 8400 (1 + 126) 2
    refine buildMatchesAux_skip_batch 126 2 1 ?_
    intro m hm1 hm2
    have hm126 : m ≤ 126 := by omega
    have hmono := harmonic_to_cents_mono hm1 hm126
    have hub : harmonic_to_cents m < 8375 := lt_of_le_of_lt hmono hc_padfin_ub
    have hcast : (m : ℝ) ≤ 126 := by exact_mod_cast hm126
    refine ⟨by intro habs; linarith, ?_, by intro habs; linarith⟩
    intro habs
    have h5 : (8400 : ℝ) - harmonic_to_cents m ≤ |8400 - harmonic_to_cents m| :=
      le_abs_self _
    linarith
  have s1 : buildMatchesAux 54 25 8400 127 2 =
      (127, (8400 : ℝ) - harmonic_to_cents 127) :: buildMatchesAux 54 25 8400 128 1 := by
    show buildMatchesAux 54 25 8400 127 (1 + 1) =
      (127, (8400 : ℝ) - harmonic_to_cents 127) :: buildMatchesAux 54 25 8400 (127 + 1) 1
    refine buildMatchesAux_match_step 1 (by norm_num) ?_ ?_
    · rw [abs_le]
      constructor
      · linarith [hc_semifin_ub]
      · linarith [hc_semifin_lb]
    · intro habs
      linarith [hc_semifin_ub]
  have s2 : buildMatchesAux 54 25 8400 128 1 =
      (128, (8400 : ℝ) - harmonic_to_cents 128) :: buildMatchesAux 54 25 8400 129 0 := by
    show buildMatchesAux 54 25 8400 128 (0 + 1) =
      (128, (8400 : ℝ) - harmonic_to_cents 128) :: buildMatchesAux 54 25 8400 (128 + 1) 0
    refine buildMatchesAux_match_step 0 (by norm_num) ?_ ?_
    · rw [hc_one_two_eight]
      norm_num
    · rw [hc_one_two_eight]
      norm_num
  rw [hbatch, s1, s2, buildMatchesAux_zero, hc_one_two_eight]
  norm_num

/-!  The stored mapping of the worked example, key by key. -/

/-- MIDI 24 ↦ [(1, 0)]. -/
lemma m54_lookup_24 : mappingLookup mapper54 24 = some [(1, (0 : ℝ))] := by
  have hkc : key_cents mapper54 24 = 0 := by
    norm_num [key_cents, mapper54, create_default_mapper]
  refine mappingLookup_eq_some (by decide) (by decide) ?_
  show buildMatchesAux 54 25 (key_cents mapper54 24) 1 128 = [(1, 0)]
  rw [hkc]
  exact scan_m54_24

/-- MIDI 36 ↦ [(2, 0)]. -/
lemma m54_lookup_36 : mappingLookup mapper54 36 = some [(2, (0 : ℝ))] := by
  have hkc : key_cents mapper54 36 = 1200 := by
    norm_num [key_cents, mapper54, create_default_mapper]
  refine mappingLookup_eq_some (by decide) (by decide) ?_
  show buildMatchesAux 54 25 (key_cents mapper54 36) 1 128 = [(2, 0)]
  rw [hkc]
  exact scan_m54_36

/-- MIDI 43 ↦ [(3, 1900 − hc 3)]. -/
lemma m54_lookup_43 :
    mappingLookup mapper54 43 = some [(3, 1900 - harmonic_to_cents 3)] := by
  have hkc : key_cents mapper54 43 = 1900 := by
    norm_num [key_cents, mapper54, create_default_mapper]
  refine mappingLookup_eq_some (by decide) (by decide) ?_
  show buildMatchesAux 54 25 (key_cents mapper54 43) 1 128 = [(3, 1900 - harmonic_to_cents 3)]
  rw [hkc]
  exact scan_m54_43

/-- MIDI 48 ↦ [(4, 0)]. -/
lemma m54_lookup_48 : mappingLookup mapper54 48 = some [(4, (0 : ℝ))] := by
  have hkc : key_cents mapper54 48 = 2400 := by
    norm_num [key_cents, mapper54, create_default_mapper]
  refine mappingLookup_eq_some (by decide) (by decide) ?_
  show buildMatchesAux 54 25 (key_cents mapper54 48) 1 128 = [(4, 0)]
  rw [hkc]
  exact scan_m54_48

/-- MIDI 52 ↦ [(5, 2800 − hc 5)]. -/
lemma m54_lookup_52 :
    mappingLookup mapper54 52 = some [(5, 2800 - harmonic_to_cents 5)] := by
  have hkc : key_cents mapper54 52 = 2800 := by
    norm_num [key_cents, mapper54, create_default_mapper]
  refine mappingLookup_eq_some (by decide) (by decide) ?_
  show buildMatchesAux 54 25 (key_cents mapper54 52) 1 128 = [(5, 2800 - harmonic_to_cents 5)]
  rw [hkc]
  exact scan_m54_52

/-- MIDI 58 has no stored match at 25 cents tolerance. -/
lemma m54_lookup_58 : mappingLookup mapper54 58 = none := by
  have hkc : key_cents mapper54 58 = 3400 := by
    norm_num [key_cents, mapper54, create_default_mapper]
  refine mappingLookup_eq_none (by decide) (by decide) ?_
  show buildMatchesAux 54 25 (key_cents mapper54 58) 1 128 = []
  rw [hkc]
  exact scan_m54_58

/-- MIDI 31 has no stored match at 25 cents tolerance. -/
lemma m54_lookup_31 : mappingLookup mapper54 31 = none := by
  have hkc : key_cents mapper54 31 = 700 := by
    norm_num [key_cents, mapper54, create_default_mapper]
  refine mappingLookup_eq_none (by decide) (by decide) ?_
  show buildMatchesAux 54 25 (key_cents mapper54 31) 1 128 = []
  rw [hkc]
  exact scan_m54_31

/-- MIDI 108 ↦ [(127, 8400 − hc 127), (128, 0)]. -/
lemma m54_lookup_108 :
    mappingLookup mapper54 108 =
      some [(127, 8400 - harmonic_to_cents 127), (128, (0 : ℝ))] := by
  have hkc : key_cents mapper54 108 = 8400 := by
    norm_num [key_cents, mapper54, create_default_mapper]
  refine mappingLookup_eq_some (by decide) (by decide) ?_
  show buildMatchesAux 54 25 (key_cents mapper54 108) 1 128 =
    [(127, 8400 - harmonic_to_cents 127), (128, 0)]
  rw [hkc]
  exact scan_m54_108

/-- After `rebuild(tolerance_cents=35)`, MIDI 58 ↦ [(7, 3400 − hc 7)]. -/
lemma m54t35_lookup_58 :
    mappingLookup (mapper54.rebuild none none (some 35)) 58 =
      some [(7, 3400 - harmonic_to_cents 7)] := by
  have hkc : key_cents (mapper54.rebuild none none (some 35)) 58 = 3400 := by
    norm_num [key_cents, mapper54, create_default_mapper, KeyMapper.rebuild]
  refine mappingLookup_eq_some (by decide) (by decide) ?_
  show buildMatchesAux 54 35 (key_cents (mapper54.rebuild none none (some 35)) 58) 1 128 =
    [(7, 3400 - harmonic_to_cents 7)]
  rw [hkc]
  exact scan_m54_58_t35

/-- `get_harmonic` of key 31: no match (borrow witness precondition). -/
lemma m54_get_harmonic_31 : mapper54.get_harmonic 31 = none := by
  unfold KeyMapper.get_harmonic
  rw [m54_lookup_31]

/-- `get_match` of key 43: harmonic 3 at 162 Hz. -/
lemma m54_get_match_43 :
    mapper54.get_match 43 = some ⟨43, 3, 162, 1900 - harmonic_to_cents 3⟩ := by
  unfold KeyMapper.get_match
  rw [m54_lookup_43]
  norm_num [mapper54, create_default_mapper]

/-!  Getter values determined by the stored mapping. -/

/-- An absent key has no `get_match`. -/
lemma get_match_eq_of_lookup_none {km : KeyMapper} {midi : ℤ}
    (h : mappingLookup km midi = none) : km.get_match midi = none := by
  unfold KeyMapper.get_match
  rw [h]

/-- An absent key has no `get_all_matches`. -/
lemma get_all_eq_of_lookup_none {km : KeyMapper} {midi : ℤ}
    (h : mappingLookup km midi = none) : km.get_all_matches midi = [] := by
  unfold KeyMapper.get_all_matches
  rw [h]

/-- `get_match` of a stored key is built from the first stored pair. -/
lemma get_match_eq_of_lookup_some {km : KeyMapper} {midi : ℤ} {n : ℕ} {d : ℝ}
    {rest : List (ℕ × ℝ)} (h : mappingLookup km midi = some ((n, d) :: rest)) :
    km.get_match midi = some ⟨midi, n, km.f1 * (n : ℝ), d⟩ := by
  unfold KeyMapper.get_match
  rw [h]

/-- `get_all_matches` of a stored key maps over the stored list. -/
lemma get_all_eq_of_lookup_some {km : KeyMapper} {midi : ℤ} {l : List (ℕ × ℝ)}
    (h : mappingLookup km midi = some l) :
    km.get_all_matches midi =
      l.map (fun p => ⟨midi, p.1, km.f1 * (p.1 : ℝ), p.2⟩) := by
  unfold KeyMapper.get_all_matches
  rw [h]

/-- The mapping never stores an empty list. -/
lemma mappingLookup_ne_some_nil (km : KeyMapper) (midi : ℤ) :
    mappingLookup km midi ≠ some [] := by
  unfold mappingLookup
  by_cases hin : km.lowest_midi ≤ midi ∧ midi ≤ km.highest_midi
  · rw [if_pos hin]
    cases buildMatchesAux km.f1 km.tolerance_cents (key_cents km midi) 1 km.max_harmonic with
    | nil => simp
    | cons p rest => simp
  · rw [if_neg hin]
    simp

/-- Any stored match list is strictly ascending in the harmonic number. -/
lemma mappingLookup_sorted {km : KeyMapper} {midi : ℤ} {l : List (ℕ × ℝ)}
    (h : mappingLookup km midi = some l) : l.Pairwise (fun p q => p.1 < q.1) := by
  unfold mappingLookup at h
  by_cases hin : km.lowest_midi ≤ midi ∧ midi ≤ km.highest_midi
  · rw [if_pos hin] at h
    have hsort : (buildMatchesAux km.f1 km.tolerance_cents (key_cents km midi) 1
        km.max_harmonic).Pairwise (fun p q => p.1 < q.1) :=
      buildMatchesAux_sorted km.max_harmonic 1
    rcases hs : buildMatchesAux km.f1 km.tolerance_cents (key_cents km midi) 1
        km.max_harmonic with _ | ⟨p, rest⟩
    · rw [hs] at h
      simp at h
    · rw [hs] at h
      rw [hs] at hsort
      injection h with h2
      rw [← h2]
      exact hsort
  · rw [if_neg hin] at h
    simp at h

/-- C4: on the spec's worked example (f₁ = 54 Hz, anchor MIDI 24,
tolerance 25¢): key 24 → n=1 (54 Hz), 36 → n=2 (108 Hz), 43 → n=3
(162 Hz), 48 → n=4 (216 Hz), 52 → n=5 (270 Hz); key 58 has no match;
after rebuilding with tolerance 35¢, key 58 → n=7 (378 Hz). -/
theorem C4_worked_example :
    mapper54.get_harmonic 24 = some 1 ∧ mapper54.get_beacon_frequency 24 = some 54
    ∧ mapper54.get_harmonic 36 = some 2 ∧ mapper54.get_beacon_frequency 36 = some 108
    ∧ mapper54.get_harmonic 43 = some 3 ∧ mapper54.get_beacon_frequency 43 = some 162
    ∧ mapper54.get_harmonic 48 = some 4 ∧ mapper54.get_beacon_frequency 48 = some 216
    ∧ mapper54.get_harmonic 52 = some 5 ∧ mapper54.get_beacon_frequency 52 = some 270
    ∧ mapper54.get_harmonic 58 = none
    ∧ (mapper54.rebuild none none (some 35)).get_harmonic 58 = some 7
    ∧ (mapper54.rebuild none none (some 35)).get_beacon_frequency 58 = some 378 := by
  refine ⟨?_, ?_, ?_, ?_, ?_, ?_, ?_, ?_, ?_, ?_, ?_, ?_, ?_⟩
  · unfold KeyMapper.get_harmonic
    rw [m54_lookup_24]
  · unfold KeyMapper.get_beacon_frequency
    rw [m54_lookup_24]
    norm_num [mapper54, create_default_mapper]
  · unfold KeyMapper.get_harmonic
    rw [m54_lookup_36]
  · unfold KeyMapper.get_beacon_frequency
    rw [m54_lookup_36]
    norm_num [mapper54, create_default_mapper]
  · unfold KeyMapper.get_harmonic
    rw [m54_lookup_43]
  · unfold KeyMapper.get_beacon_frequency
    rw [m54_lookup_43]
    norm_num [mapper54, create_default_mapper]
  · unfold KeyMapper.get_harmonic
    rw [m54_lookup_48]
  · unfold KeyMapper.get_beacon_frequency
    rw [m54_lookup_48]
    norm_num [mapper54, create_default_mapper]
  · unfold KeyMapper.get_harmonic
    rw [m54_lookup_52]
  · unfold KeyMapper.get_beacon_frequency
    rw [m54_lookup_52]
    norm_num [mapper54, create_default_mapper]
  · unfold KeyMapper.get_harmonic
    rw [m54_lookup_58]
  · unfold KeyMapper.get_harmonic
    rw [m54t35_lookup_58]
  · unfold KeyMapper.get_beacon_frequency
    rw [m54t35_lookup_58]
    norm_num [mapper54, create_default_mapper, KeyMapper.rebuild]

/-- C1 (counterexample): on the worked example, key 108 matches both
n=127 (deviation ≈ +13.58¢) and n=128 (deviation 0), and `get_match`
returns the n=127 match, whose absolute deviation is NOT minimal — the
n=128 match deviates strictly less. -/
theorem C1_counterexample :
    mapper54.get_match 108 = some ⟨108, 127, 6858, 8400 - harmonic_to_cents 127⟩
    ∧ (⟨108, 128, 6912, 0⟩ : HarmonicMatch) ∈ mapper54.get_all_matches 108
    ∧ |(0 : ℝ)| < |8400 - harmonic_to_cents 127| := by
  refine ⟨?_, ?_, ?_⟩
  · rw [get_match_eq_of_lookup_some m54_lookup_108]
    norm_num [mapper54, create_default_mapper]
  · rw [get_all_eq_of_lookup_some m54_lookup_108]
    have he : (⟨108, 128, 6912, 0⟩ : HarmonicMatch) =
        ⟨108, (128 : ℕ), mapper54.f1 * ((128 : ℕ) : ℝ), 0⟩ := by
      norm_num [mapper54, create_default_mapper]
    rw [he]
    simp
  · have h : (0 : ℝ) < 8400 - harmonic_to_cents 127 := by
      linarith [hc_semifin_ub]
    rw [abs_zero, abs_of_pos h]
    exact h

/-- C1 (amended): `get_match` returns the match with the LOWEST harmonic
number — the head of `get_all_matches` — which need not minimize the
absolute deviation; `get_all_matches` lists every match in strictly
ascending harmonic order. -/
theorem C1_get_match_lowest (km : KeyMapper) (midi : ℤ) :
    km.get_match midi = (km.get_all_matches midi).head?
    ∧ (km.get_all_matches midi).Pairwise (fun a b => a.harmonic_n < b.harmonic_n)
    ∧ ∀ m, km.get_match midi = some m →
        ∀ m2 ∈ km.get_all_matches midi, m.harmonic_n ≤ m2.harmonic_n := by
  rcases hl : mappingLookup km midi with _ | l
  · rw [get_match_eq_of_lookup_none hl, get_all_eq_of_lookup_none hl]
    refine ⟨rfl, List.Pairwise.nil, ?_⟩
    intro m hm
    simp at hm
  · rcases l with _ | ⟨⟨n, d⟩, rest⟩
    · exact absurd hl (mappingLookup_ne_some_nil km midi)
    · have hsort := mappingLookup_sorted hl
      rw [get_match_eq_of_lookup_some hl, get_all_eq_of_lookup_some hl]
      refine ⟨rfl, ?_, ?_⟩
      · refine List.Pairwise.map _ ?_ hsort
        intro a b hab
        exact hab
      · intro m hm m2 hm2
        injection hm with hm
        rw [List.map_cons, List.mem_cons] at hm2
        rcases hm2 with rfl | hmem
        · rw [← hm]
        · rw [List.mem_map] at hmem
          obtain ⟨p, hp, rfl⟩ := hmem
          have hlt := (List.pairwise_cons.mp hsort).1 p hp
          rw [← hm]
          exact le_of_lt hlt

/-- Extract range and scan from a successful lookup. -/
lemma mappingLookup_in_range {km : KeyMapper} {midi : ℤ} {l : List (ℕ × ℝ)}
    (h : mappingLookup km midi = some l) :
    km.lowest_midi ≤ midi ∧ midi ≤ km.highest_midi ∧
      buildMatchesAux km.f1 km.tolerance_cents (key_cents km midi) 1
        km.max_harmonic = l := by
  unfold mappingLookup at h
  by_cases hin : km.lowest_midi ≤ midi ∧ midi ≤ km.highest_midi
  · rw [if_pos hin] at h
    rcases hs : buildMatchesAux km.f1 km.tolerance_cents (key_cents km midi) 1
        km.max_harmonic with _ | ⟨p, rest⟩
    · rw [hs] at h
      simp at h
    · rw [hs] at h
      injection h with h2
      exact ⟨hin.1, hin.2, h2⟩
  · rw [if_neg hin] at h
    simp at h

/-- C3: for every key K in the configured keyboard range (with a positive
fundamental), the stored match set is exactly the set of harmonics
`n ∈ 1..max_harmonic` with `f1 * n ≤ 20000` and
`|key_cents − 1200·log2 n| ≤ tolerance` (each paired with its deviation),
listed in strictly ascending order of n; a key with no such harmonic is
stored as absent.  Matching is symmetric (the condition is an absolute
value) and the early breaks of the scan lose no match. -/
theorem C3_mapping_exact (km : KeyMapper) (K : ℤ)
    (hf1 : 0 < km.f1) (hlo : km.lowest_midi ≤ K) (hhi : K ≤ km.highest_midi) :
    (∀ l, mappingLookup km K = some l →
      ((∀ p : ℕ × ℝ, p ∈ l ↔
          1 ≤ p.1 ∧ p.1 ≤ km.max_harmonic ∧ km.f1 * (p.1 : ℝ) ≤ 20000 ∧
          |key_cents km K - harmonic_to_cents p.1| ≤ km.tolerance_cents ∧
          p.2 = key_cents km K - harmonic_to_cents p.1)
        ∧ l.Pairwise (fun p q => p.1 < q.1)))
    ∧ (mappingLookup km K = none ↔
        ∀ n : ℕ, 1 ≤ n → n ≤ km.max_harmonic → km.f1 * (n : ℝ) ≤ 20000 →
          ¬ |key_cents km K - harmonic_to_cents n| ≤ km.tolerance_cents) := by
  constructor
  · intro l hsome
    obtain ⟨-, -, hscan⟩ := mappingLookup_in_range hsome
    constructor
    · intro p
      have hmem := buildMatchesAux_mem km.f1 km.tolerance_cents (key_cents km K)
        hf1 km.max_harmonic 1 (le_refl 1) p
      rw [hscan] at hmem
      rw [hmem]
      constructor
      · rintro ⟨h1, h2, h3, h4, h5⟩
        exact ⟨h1, by omega, h3, h4, h5⟩
      · rintro ⟨h1, h2, h3, h4, h5⟩
        exact ⟨h1, by omega, h3, h4, h5⟩
    · exact mappingLookup_sorted hsome
  · rw [mappingLookup_none_iff hlo hhi]
    constructor
    · intro hnil n hn1 hn2 hn3 habs
      have hmem := (buildMatchesAux_mem km.f1 km.tolerance_cents (key_cents km K)
        hf1 km.max_harmonic 1 (le_refl 1)
        (n, key_cents km K - harmonic_to_cents n)).mpr
        ⟨hn1, by omega, hn3, habs, rfl⟩
      rw [hnil] at hmem
      simp at hmem
    · intro hall
      rcases hs : buildMatchesAux km.f1 km.tolerance_cents (key_cents km K) 1
          km.max_harmonic with _ | ⟨p, rest⟩
      · rfl
      · exfalso
        have hp : p ∈ buildMatchesAux km.f1 km.tolerance_cents (key_cents km K) 1
            km.max_harmonic := by
          rw [hs]
          exact List.mem_cons_self p rest
        obtain ⟨h1, h2, h3, h4, -⟩ :=
          (buildMatchesAux_mem km.f1 km.tolerance_cents (key_cents km K)
            hf1 km.max_harmonic 1 (le_refl 1) p).mp hp
        exact hall p.1 h1 (by omega) h3 h4

/-- Witness for C3 at the worked-example mapper and key 24. -/
theorem C3_mapping_exact_witness :
    (0 : ℝ) < mapper54.f1 ∧ mapper54.lowest_midi ≤ 24 ∧ (24 : ℤ) ≤ mapper54.highest_midi ∧
    ((∀ l, mappingLookup mapper54 24 = some l →
      ((∀ p : ℕ × ℝ, p ∈ l ↔
          1 ≤ p.1 ∧ p.1 ≤ mapper54.max_harmonic ∧ mapper54.f1 * (p.1 : ℝ) ≤ 20000 ∧
          |key_cents mapper54 24 - harmonic_to_cents p.1| ≤ mapper54.tolerance_cents ∧
          p.2 = key_cents mapper54 24 - harmonic_to_cents p.1)
        ∧ l.Pairwise (fun p q => p.1 < q.1)))
    ∧ (mappingLookup mapper54 24 = none ↔
        ∀ n : ℕ, 1 ≤ n → n ≤ mapper54.max_harmonic → mapper54.f1 * (n : ℝ) ≤ 20000 →
          ¬ |key_cents mapper54 24 - harmonic_to_cents n| ≤ mapper54.tolerance_cents)) :=
  ⟨by norm_num [mapper54, create_default_mapper], by decide, by decide,
    C3_mapping_exact mapper54 24 (by norm_num [mapper54, create_default_mapper])
      (by decide) (by decide)⟩

/-!  The octave-borrow loop. -/

/-- One unfolding of the borrow loop body. -/
lemma borrowAux_succ (km : KeyMapper) (K : ℤ) (u fuel : ℕ) :
    borrowAux km K u (fuel + 1) =
      if km.highest_midi < K + 12 * (u : ℤ) then none
      else
        match km.get_match (K + 12 * (u : ℤ)) with
        | some m => some ⟨K, K + 12 * (u : ℤ), m.harmonic_n, m.beacon_frequency, u⟩
        | none => borrowAux km K (u + 1) fuel := by
  rw [borrowAux]

/-- If no octave in the scanned window (clipped to the keyboard range)
has a match, the loop reports none. -/
lemma borrowAux_none {km : KeyMapper} {K : ℤ} :
    ∀ (fuel u : ℕ),
      (∀ v : ℕ, u ≤ v → v < u + fuel → K + 12 * (v : ℤ) ≤ km.highest_midi →
        km.get_match (K + 12 * (v : ℤ)) = none) →
      borrowAux km K u fuel = none := by
  intro fuel
  induction fuel with
  | zero =>
    intro u _
    rfl
  | succ fuel ih =>
    intro u h
    rw [borrowAux_succ]
    by_cases hb : km.highest_midi < K + 12 * (u : ℤ)
    · rw [if_pos hb]
    · rw [if_neg hb]
      have hm := h u (le_refl _) (by omega) (not_lt.mp hb)
      rw [hm]
      exact ih (u + 1) (fun v hv1 hv2 hv3 => h v (by omega) (by omega) hv3)

/-- The loop returns the FIRST octave whose lookup succeeds. -/
lemma borrowAux_finds {km : KeyMapper} {K : ℤ} {m : HarmonicMatch} :
    ∀ (fuel u u0 : ℕ), u ≤ u0 → u0 < u + fuel →
      K + 12 * (u0 : ℤ) ≤ km.highest_midi →
      km.get_match (K + 12 * (u0 : ℤ)) = some m →
      (∀ v : ℕ, u ≤ v → v < u0 → km.get_match (K + 12 * (v : ℤ)) = none) →
      borrowAux km K u fuel =
        some ⟨K, K + 12 * (u0 : ℤ), m.harmonic_n, m.beacon_frequency, u0⟩ := by
  intro fuel
  induction fuel with
  | zero =>
    intro u u0 h1 h2 _ _ _
    omega
  | succ fuel ih =>
    intro u u0 h1 h2 h3 h4 h5
    rw [borrowAux_succ]
    rcases Nat.eq_or_lt_of_le h1 with heq | hlt
    · subst heq
      rw [if_neg (not_lt.mpr h3), h4]
    · have hble : K + 12 * (u : ℤ) ≤ km.highest_midi := by
        have hc : (u : ℤ) ≤ (u0 : ℤ) := by exact_mod_cast le_of_lt hlt
        omega
      have hvnone := h5 u (le_refl _) hlt
      rw [if_neg (not_lt.mpr hble), hvnone]
      exact ih (u + 1) u0 (by omega) (by omega) h3 h4
        (fun v hv1 hv2 => h5 v (by omega) hv2)

/-- C5: `borrow` returns none whenever the key has a direct match; when
it has none, `borrow` returns a `BorrowedMatch` for the FIRST key among
K+12, K+24, … inside the keyboard range whose lookup succeeds, recording
that key's harmonic and the octave count; and when no octave inside the
range matches, it returns none (an absent value, not an error).  The
range hypothesis says the keyboard top is less than ten octaves above K,
which holds for every real configuration (MIDI keys stop at 127). -/
theorem C5_borrow_first_octave (km : KeyMapper) (K : ℤ)
    (hrange : km.highest_midi < K + 120) :
    (∀ h : ℕ, km.get_harmonic K = some h → borrow km K = none)
    ∧ (∀ (u : ℕ) (m : HarmonicMatch), km.get_harmonic K = none → 1 ≤ u →
        K + 12 * (u : ℤ) ≤ km.highest_midi →
        km.get_match (K + 12 * (u : ℤ)) = some m →
        (∀ v : ℕ, 1 ≤ v → v < u → km.get_match (K + 12 * (v : ℤ)) = none) →
        borrow km K = some ⟨K, K + 12 * (u : ℤ), m.harmonic_n, m.beacon_frequency, u⟩)
    ∧ ((km.get_harmonic K = none ∧
        ∀ v : ℕ, 1 ≤ v → K + 12 * (v : ℤ) ≤ km.highest_midi →
          km.get_match (K + 12 * (v : ℤ)) = none) →
        borrow km K = none) := by
  refine ⟨?_, ?_, ?_⟩
  · intro h hh
    unfold borrow
    rw [hh]
  · intro u m hnone hu1 hu2 hu3 hu4
    unfold borrow
    rw [hnone]
    have hu9 : u < 1 + 9 := by omega
    exact borrowAux_finds 9 1 u hu1 hu9 hu2 hu3 (fun v hv1 hv2 => hu4 v hv1 hv2)
  · rintro ⟨hnone, hall⟩
    unfold borrow
    rw [hnone]
    exact borrowAux_none 9 1 (fun v hv1 _ hv3 => hall v hv1 hv3)

/-- Witness for C5: key 31 has no direct match on the worked example and
borrows from key 43 one octave up (harmonic 3, 162 Hz). -/
theorem C5_borrow_first_octave_witness :
    borrow mapper54 31 = some ⟨31, 43, 3, 162, 1⟩ := by
  have h := (C5_borrow_first_octave mapper54 31 (by decide)).2.1 1
    ⟨43, 3, 162, 1900 - harmonic_to_cents 3⟩
    m54_get_harmonic_31 (le_refl 1) (by decide)
    (by
      have he : (31 : ℤ) + 12 * ((1 : ℕ) : ℤ) = 43 := by norm_num
      rw [he]
      exact m54_get_match_43)
    (by
      intro v hv1 hv2
      exact absurd hv2 (not_lt.mpr hv1))
  rw [h]
  norm_num

/-- A key with no `get_harmonic` has no `get_match` either (both read the
same stored list). -/
lemma get_match_none_of_harmonic_none {km : KeyMapper} {midi : ℤ}
    (h : km.get_harmonic midi = none) : km.get_match midi = none := by
  unfold KeyMapper.get_harmonic at h
  unfold KeyMapper.get_match
  rcases hl : mappingLookup km midi with _ | l
  · rfl
  · rw [hl] at h
    rcases l with _ | ⟨⟨n, d⟩, rest⟩
    · rfl
    · simp at h

/-- What a successful `get_match` tells us: the harmonic is ≥ 1, within
tolerance of the key, and the reported frequency and deviation are
`f1 * n` and `key_cents − harmonic_cents`. -/
lemma get_match_sound {km : KeyMapper} {midi : ℤ} {m : HarmonicMatch}
    (hf1 : 0 < km.f1) (h : km.get_match midi = some m) :
    1 ≤ m.harmonic_n ∧ m.beacon_frequency = km.f1 * (m.harmonic_n : ℝ) ∧
    |key_cents km midi - harmonic_to_cents m.harmonic_n| ≤ km.tolerance_cents ∧
    m.deviation_cents = key_cents km midi - harmonic_to_cents m.harmonic_n := by
  unfold KeyMapper.get_match at h
  rcases hl : mappingLookup km midi with _ | l
  · rw [hl] at h
    simp at h
  · rw [hl] at h
    rcases l with _ | ⟨⟨n, d⟩, rest⟩
    · simp at h
    · injection h with h
      obtain ⟨-, -, hscan⟩ := mappingLookup_in_range hl
      have hmem : ((n, d) : ℕ × ℝ) ∈ buildMatchesAux km.f1 km.tolerance_cents
          (key_cents km midi) 1 km.max_harmonic := by
        rw [hscan]
        exact List.mem_cons_self _ _
      obtain ⟨h1, -, -, h4, h5⟩ := (buildMatchesAux_mem km.f1 km.tolerance_cents
        (key_cents km midi) hf1 km.max_harmonic 1 (le_refl 1) ((n, d))).mp hmem
      subst h
      exact ⟨h1, rfl, h4, h5⟩

/-- What the borrow loop guarantees about a returned `BorrowedMatch`. -/
lemma borrowAux_sound {km : KeyMapper} {K : ℤ} {bm : BorrowedMatch} :
    ∀ (fuel u : ℕ), 1 ≤ u → borrowAux km K u fuel = some bm →
      1 ≤ bm.octaves_borrowed ∧ bm.original_midi = K ∧
      bm.borrowed_midi = K + 12 * (bm.octaves_borrowed : ℤ) ∧
      ∃ m : HarmonicMatch, km.get_match bm.borrowed_midi = some m ∧
        bm.harmonic_n = m.harmonic_n ∧ bm.beacon_frequency = m.beacon_frequency := by
  intro fuel
  induction fuel with
  | zero =>
    intro u hu h
    exact absurd h (by simp [borrowAux])
  | succ fuel ih =>
    intro u hu h
    rw [borrowAux_succ] at h
    by_cases hb : km.highest_midi < K + 12 * (u : ℤ)
    · rw [if_pos hb] at h
      simp at h
    · rw [if_neg hb] at h
      rcases hm : km.get_match (K + 12 * (u : ℤ)) with _ | m
      · rw [hm] at h
        obtain ⟨h1, h2, h3, h4⟩ := ih (u + 1) (by omega) h
        exact ⟨by omega, h2, h3, h4⟩
      · rw [hm] at h
        injection h with h
        subst h
        exact ⟨hu, rfl, rfl, m, hm, rfl, rfl⟩

/-- What `borrow` guarantees about a returned `BorrowedMatch`. -/
lemma borrow_sound {km : KeyMapper} {K : ℤ} {bm : BorrowedMatch}
    (h : borrow km K = some bm) :
    km.get_harmonic K = none ∧ 1 ≤ bm.octaves_borrowed ∧ bm.original_midi = K ∧
    bm.borrowed_midi = K + 12 * (bm.octaves_borrowed : ℤ) ∧
    ∃ m : HarmonicMatch, km.get_match bm.borrowed_midi = some m ∧
      bm.harmonic_n = m.harmonic_n ∧ bm.beacon_frequency = m.beacon_frequency := by
  unfold borrow at h
  rcases hg : km.get_harmonic K with _ | hh
  · rw [hg] at h
    obtain ⟨h1, h2, h3, h4⟩ := borrowAux_sound 9 1 (le_refl 1) h
    exact ⟨rfl, h1, h2, h3, h4⟩
  · rw [hg] at h
    simp at h

/-- C6: when a note-on resolves through the Octave Borrower, the primary
voice plays the borrowed beacon frequency folded down by the reported
octave count, `f1 * n / 2 ^ octaves_borrowed`; and (for any tolerance of
at most an octave) that folded-back frequency lies within one octave —
in fact within the tolerance — of the pressed key's expected register. -/
theorem C6_borrowed_fold (km : KeyMapper) (K : ℤ) (bm : BorrowedMatch)
    (hf1 : 0 < km.f1) (ht12 : km.tolerance_cents ≤ 1200)
    (hbm : borrow km K = some bm) :
    primary_voice_frequency km km.f1 K =
      some (bm.beacon_frequency / 2 ^ bm.octaves_borrowed)
    ∧ bm.beacon_frequency = km.f1 * (bm.harmonic_n : ℝ)
    ∧ |1200 * Real.logb 2
        ((bm.beacon_frequency / 2 ^ bm.octaves_borrowed) /
          expected_frequency km K)| ≤ 1200 := by
  obtain ⟨hgnone, hoct1, -, hbmid, m, hgm, hn_eq, hb_eq⟩ := borrow_sound hbm
  obtain ⟨hn1m, hbfreq, hdev, -⟩ := get_match_sound hf1 hgm
  have hbf : bm.beacon_frequency = km.f1 * (bm.harmonic_n : ℝ) := by
    rw [hb_eq, hbfreq, hn_eq]
  have hmz : km.get_match K = none := get_match_none_of_harmonic_none hgnone
  refine ⟨?_, hbf, ?_⟩
  · unfold primary_voice_frequency
    rw [hmz, hbm, hbf]
  · have hn1 : 1 ≤ bm.harmonic_n := by
      rw [hn_eq]
      exact hn1m
    have hnpos : (0 : ℝ) < (bm.harmonic_n : ℝ) := by
      have h1 : (1 : ℝ) ≤ (bm.harmonic_n : ℝ) := by exact_mod_cast hn1
      linarith
    have hdev2 : |key_cents km (K + 12 * (bm.octaves_borrowed : ℤ)) -
        harmonic_to_cents bm.harmonic_n| ≤ km.tolerance_cents := by
      have hd := hdev
      rw [hbmid] at hd
      rw [hn_eq]
      exact hd
    have hkc : key_cents km (K + 12 * (bm.octaves_borrowed : ℤ)) =
        key_cents km K + 1200 * (bm.octaves_borrowed : ℝ) := by
      unfold key_cents
      push_cast
      ring
    have hfne : km.f1 ≠ 0 := ne_of_gt hf1
    have h2u : (0 : ℝ) < (2 : ℝ) ^ bm.octaves_borrowed := by positivity
    have hw : (0 : ℝ) < (2 : ℝ) ^ (((K - km.anchor_midi : ℤ) : ℝ) / 12) :=
      Real.rpow_pos_of_pos (by norm_num) _
    have hlog : 1200 * Real.logb 2
        ((bm.beacon_frequency / 2 ^ bm.octaves_borrowed) / expected_frequency km K)
        = harmonic_to_cents bm.harmonic_n - 1200 * (bm.octaves_borrowed : ℝ) -
          key_cents km K := by
      rw [hbf]
      unfold expected_frequency
      have hX : (km.f1 * (bm.harmonic_n : ℝ) / 2 ^ bm.octaves_borrowed) /
          (km.f1 * (2 : ℝ) ^ (((K - km.anchor_midi : ℤ) : ℝ) / 12))
          = (bm.harmonic_n : ℝ) /
            ((2 : ℝ) ^ bm.octaves_borrowed *
              (2 : ℝ) ^ (((K - km.anchor_midi : ℤ) : ℝ) / 12)) := by
        field_simp
        ring
      rw [hX]
      rw [Real.logb_div (ne_of_gt hnpos) (by positivity)]
      rw [Real.logb_mul (ne_of_gt h2u) (ne_of_gt hw)]
      rw [Real.logb_pow]
      rw [Real.logb_rpow (by norm_num) (by norm_num)]
      rw [Real.logb_self_eq_one one_lt_two]
      unfold harmonic_to_cents key_cents
      push_cast
      ring
    rw [hlog]
    have hneg : harmonic_to_cents bm.harmonic_n - 1200 * (bm.octaves_borrowed : ℝ) -
        key_cents km K
        = -(key_cents km (K + 12 * (bm.octaves_borrowed : ℤ)) -
            harmonic_to_cents bm.harmonic_n) := by
      rw [hkc]
      ring
    rw [hneg, abs_neg]
    exact le_trans hdev2 ht12

/-- `borrow` on the worked example at key 31, computed without going
through the C5 statement (for reuse as a hypothesis elsewhere). -/
lemma borrow_m54_31 : borrow mapper54 31 = some ⟨31, 43, 3, 162, 1⟩ := by
  unfold borrow
  rw [m54_get_harmonic_31]
  have hmatch : mapper54.get_match ((31 : ℤ) + 12 * ((1 : ℕ) : ℤ)) =
      some ⟨43, 3, 162, 1900 - harmonic_to_cents 3⟩ := by
    rw [(by norm_num : (31 : ℤ) + 12 * ((1 : ℕ) : ℤ) = 43)]
    exact m54_get_match_43
  have h := borrowAux_finds 9 1 1 (le_refl 1) (by omega) (by decide) hmatch
    (fun v hv1 hv2 => absurd hv2 (not_lt.mpr hv1))
  rw [h]
  norm_num

/-- Witness for C6 at the worked example: key 31 borrows harmonic 3 from
one octave up and plays 162/2 = 81 Hz. -/
theorem C6_borrowed_fold_witness :
    (0 : ℝ) < mapper54.f1 ∧ mapper54.tolerance_cents ≤ 1200 ∧
    (primary_voice_frequency mapper54 mapper54.f1 31 = some ((162 : ℝ) / 2 ^ 1)
     ∧ (162 : ℝ) = mapper54.f1 * ((3 : ℕ) : ℝ)
     ∧ |1200 * Real.logb 2
          (((162 : ℝ) / 2 ^ 1) / expected_frequency mapper54 31)| ≤ 1200) :=
  ⟨by norm_num [mapper54, create_default_mapper],
   by norm_num [mapper54, create_default_mapper],
   C6_borrowed_fold mapper54 31 ⟨31, 43, 3, 162, 1⟩
     (by norm_num [mapper54, create_default_mapper])
     (by norm_num [mapper54, create_default_mapper]) borrow_m54_31⟩

/-!  The F1 modulator. -/

/-- One update step keeps the target and the rate. -/
lemma F1Modulator.update_target (m : F1Modulator) :
    m.update.1.target = m.target ∧ m.update.1.rate = m.rate :=
  ⟨rfl, rfl⟩

/-- The smoothing-step identity: the distance to the target shrinks by
the factor `1 - rate`. -/
lemma F1Modulator.update_value (m : F1Modulator) :
    m.update.1.value - m.target = (1 - m.rate) * (m.value - m.target) := by
  simp only [F1Modulator.update]
  ring

/-- Iterated updates keep the target. -/
lemma F1Modulator.iterate_target (m : F1Modulator) :
    ∀ k : ℕ, (m.iterate k).target = m.target ∧ (m.iterate k).rate = m.rate := by
  intro k
  induction k with
  | zero => exact ⟨rfl, rfl⟩
  | succ k ih => exact ⟨ih.1, ih.2⟩

/-- The closed form of the iterated smoothing distance. -/
lemma F1Modulator.iterate_value (m : F1Modulator) :
    ∀ k : ℕ, (m.iterate k).value - m.target =
      (1 - m.rate) ^ k * (m.value - m.target) := by
  intro k
  induction k with
  | zero =>
    simp [F1Modulator.iterate]
  | succ k ih =>
    have hstep := F1Modulator.update_value (m.iterate k)
    rw [(m.iterate_target k).1, (m.iterate_target k).2] at hstep
    calc (m.iterate (k + 1)).value - m.target
        = (1 - m.rate) * ((m.iterate k).value - m.target) := hstep
      _ = (1 - m.rate) * ((1 - m.rate) ^ k * (m.value - m.target)) := by rw [ih]
      _ = (1 - m.rate) ^ (k + 1) * (m.value - m.target) := by ring

/-- C7: with smoothing rate in (0, 1], one update moves `value` to a point
between the old value and the target (no overshoot), scales the distance
to the target by `1 - rate` (so it never increases), reports a change
exactly when the step moved the value by more than 0.01 Hz, and
`is_stable` holds exactly when `|value - target| < 0.01`; iterating the
update shrinks the distance monotonically and converges to the target. -/
theorem C7_modulator (m : F1Modulator) (h0 : 0 < m.rate) (h1 : m.rate ≤ 1) :
    (min m.value m.target ≤ m.update.1.value ∧ m.update.1.value ≤ max m.value m.target)
    ∧ |m.update.1.value - m.target| = (1 - m.rate) * |m.value - m.target|
    ∧ |m.update.1.value - m.target| ≤ |m.value - m.target|
    ∧ (m.update.2 ↔ 0.01 < |m.update.1.value - m.value|)
    ∧ (m.is_stable ↔ |m.value - m.target| < 0.01)
    ∧ (∀ k : ℕ, |(m.iterate (k + 1)).value - m.target| ≤
        |(m.iterate k).value - m.target|)
    ∧ (∀ k : ℕ, (m.iterate k).value - m.target =
        (1 - m.rate) ^ k * (m.value - m.target))
    ∧ Filter.Tendsto (fun k : ℕ => (m.iterate k).value) Filter.atTop
        (nhds m.target) := by
  have hr0 : (0 : ℝ) ≤ 1 - m.rate := by linarith
  have hr1 : 1 - m.rate < 1 := by linarith
  have hkey := F1Modulator.update_value m
  refine ⟨?_, ?_, ?_, Iff.rfl, Iff.rfl, ?_, F1Modulator.iterate_value m, ?_⟩
  · rcases le_total m.value m.target with hvt | hvt
    · rw [min_eq_left hvt, max_eq_right hvt]
      constructor
      · nlinarith
      · nlinarith
    · rw [min_eq_right hvt, max_eq_left hvt]
      constructor
      · nlinarith
      · nlinarith
  · rw [hkey, abs_mul, abs_of_nonneg hr0]
  · rw [hkey, abs_mul, abs_of_nonneg hr0]
    nlinarith [abs_nonneg (m.value - m.target)]
  · intro k
    have hstep := F1Modulator.update_value (m.iterate k)
    rw [(m.iterate_target k).1, (m.iterate_target k).2] at hstep
    have : (m.iterate (k + 1)).value - m.target =
        (1 - m.rate) * ((m.iterate k).value - m.target) := hstep
    rw [this, abs_mul, abs_of_nonneg hr0]
    nlinarith [abs_nonneg ((m.iterate k).value - m.target)]
  · have hpow : Filter.Tendsto (fun k : ℕ => (1 - m.rate) ^ k) Filter.atTop
        (nhds 0) := tendsto_pow_atTop_nhds_zero_of_lt_one hr0 hr1
    have hmul := hpow.mul_const (m.value - m.target)
    rw [zero_mul] at hmul
    have hadd := hmul.const_add m.target
    rw [add_zero] at hadd
    refine hadd.congr ?_
    intro k
    have := F1Modulator.iterate_value m k
    linarith

/-- Witness for C7: value 100, target 200, rate 1/2. -/
theorem C7_modulator_witness :
    (0 : ℝ) < (⟨100, 200, 1/2, 30, 200⟩ : F1Modulator).rate ∧
    (⟨100, 200, 1/2, 30, 200⟩ : F1Modulator).rate ≤ 1 ∧
    ((min (100 : ℝ) 200 ≤ (⟨100, 200, 1/2, 30, 200⟩ : F1Modulator).update.1.value ∧
      (⟨100, 200, 1/2, 30, 200⟩ : F1Modulator).update.1.value ≤ max (100 : ℝ) 200)
    ∧ |(⟨100, 200, 1/2, 30, 200⟩ : F1Modulator).update.1.value - (200 : ℝ)| =
        (1 - 1/2) * |(100 : ℝ) - 200|
    ∧ |(⟨100, 200, 1/2, 30, 200⟩ : F1Modulator).update.1.value - (200 : ℝ)| ≤
        |(100 : ℝ) - 200|
    ∧ ((⟨100, 200, 1/2, 30, 200⟩ : F1Modulator).update.2 ↔
        0.01 < |(⟨100, 200, 1/2, 30, 200⟩ : F1Modulator).update.1.value - (100 : ℝ)|)
    ∧ ((⟨100, 200, 1/2, 30, 200⟩ : F1Modulator).is_stable ↔
        |(100 : ℝ) - 200| < 0.01)
    ∧ (∀ k : ℕ,
        |((⟨100, 200, 1/2, 30, 200⟩ : F1Modulator).iterate (k + 1)).value - (200 : ℝ)| ≤
        |((⟨100, 200, 1/2, 30, 200⟩ : F1Modulator).iterate k).value - (200 : ℝ)|)
    ∧ (∀ k : ℕ, ((⟨100, 200, 1/2, 30, 200⟩ : F1Modulator).iterate k).value - (200 : ℝ) =
        (1 - 1/2) ^ k * ((100 : ℝ) - 200))
    ∧ Filter.Tendsto
        (fun k : ℕ => ((⟨100, 200, 1/2, 30, 200⟩ : F1Modulator).iterate k).value)
        Filter.atTop (nhds 200)) :=
  ⟨by norm_num, by norm_num,
    C7_modulator ⟨100, 200, 1/2, 30, 200⟩ (by norm_num) (by norm_num)⟩

/-- C8: with at most one candidate the LFO returns that frequency (or the
440 Hz fallback) on every tick, regardless of `dt` and of the phase, and
does not even advance the phase; and `set_harmonics` always sets the
reference base frequency to the geometric mean of the stored candidates. -/
theorem C8_lfo_single (s : HarmonicLFO) (dt : ℝ) (l : List ℝ)
    (hlen : s.frequencies.length ≤ 1) :
    s.update dt = (s, s.frequencies.headD 440)
    ∧ (s.set_harmonics l).base_frequency =
        (s.set_harmonics l).frequencies.prod ^
          ((1 : ℝ) / ((s.set_harmonics l).frequencies.length : ℝ)) := by
  constructor
  · unfold HarmonicLFO.update
    rw [if_pos hlen]
  · unfold HarmonicLFO.set_harmonics
    rcases l with _ | ⟨f, rest⟩
    · norm_num [Real.rpow_one]
    · rcases rest with _ | ⟨g, t⟩
      · norm_num [Real.rpow_one]
      · norm_num

/-- Witness for C8 with the single candidate 162 Hz. -/
theorem C8_lfo_single_witness :
    (⟨1, VibratoMode.smooth, 0, [162], 162⟩ : HarmonicLFO).frequencies.length ≤ 1 ∧
    ((⟨1, VibratoMode.smooth, 0, [162], 162⟩ : HarmonicLFO).update 1 =
      (⟨1, VibratoMode.smooth, 0, [162], 162⟩, ([(162 : ℝ)]).headD 440)
    ∧ ((⟨1, VibratoMode.smooth, 0, [162], 162⟩ : HarmonicLFO).set_harmonics
          [162]).base_frequency =
        ((⟨1, VibratoMode.smooth, 0, [162], 162⟩ : HarmonicLFO).set_harmonics
          [162]).frequencies.prod ^
          ((1 : ℝ) / (((⟨1, VibratoMode.smooth, 0, [162], 162⟩ :
            HarmonicLFO).set_harmonics [162]).frequencies.length : ℝ))) :=
  ⟨by norm_num, C8_lfo_single ⟨1, VibratoMode.smooth, 0, [162], 162⟩ 1 [162]
    (by norm_num)⟩

/-- Invariant of the halving loop: starting from any rational ≥ 1 it
lands in [1, 2) and the removed octaves reassemble the input exactly. -/
lemma octaveReduceLoop_spec : ∀ r : ℚ, 1 ≤ r →
    1 ≤ (octaveReduceLoop r).1 ∧ (octaveReduceLoop r).1 < 2 ∧
    r = (octaveReduceLoop r).1 * 2 ^ (octaveReduceLoop r).2 := by
  intro r
  induction r using octaveReduceLoop.induct with
  | case1 r h ih =>
    intro hr
    rw [octaveReduceLoop, dif_pos h]
    have ih2 := ih (by linarith : (1 : ℚ) ≤ r / 2)
    refine ⟨ih2.1, ih2.2.1, ?_⟩
    have h3 := ih2.2.2
    calc r = (r / 2) * 2 := by ring
      _ = ((octaveReduceLoop (r / 2)).1 * 2 ^ (octaveReduceLoop (r / 2)).2) * 2 := by
          rw [← h3]
      _ = (octaveReduceLoop (r / 2)).1 * 2 ^ ((octaveReduceLoop (r / 2)).2 + 1) := by
          ring
  | case2 r h =>
    intro hr
    rw [octaveReduceLoop, dif_neg h]
    exact ⟨hr, by linarith [not_le.mp h], by ring⟩

/-- C9: `octave_reduce` reports a domain error exactly on `n ≤ 0`, and for
every positive `n` the repeated halving terminates (the function is total)
and returns a pair `(ratio, x)` with `ratio ∈ [1, 2)`, `x : ℕ`, and
`n = ratio * 2 ^ x`. -/
theorem C9_octave_reduce (n : ℤ) :
    (octave_reduce n = none ↔ n ≤ 0)
    ∧ (0 < n → (octave_reduce n).isSome)
    ∧ (∀ r : ℚ, ∀ x : ℕ, octave_reduce n = some (r, x) →
        1 ≤ r ∧ r < 2 ∧ (n : ℚ) = r * 2 ^ x) := by
  refine ⟨?_, ?_, ?_⟩
  · unfold octave_reduce
    by_cases h : n ≤ 0
    · simp [h]
    · simp [h]
  · intro h
    unfold octave_reduce
    rw [if_neg (by omega)]
    rfl
  · intro r x h
    unfold octave_reduce at h
    by_cases hn : n ≤ 0
    · rw [if_pos hn] at h
      simp at h
    · rw [if_neg hn] at h
      injection h with h
      have hr1 : (1 : ℚ) ≤ (n : ℚ) := by exact_mod_cast (by omega : (1 : ℤ) ≤ n)
      have hs := octaveReduceLoop_spec (n : ℚ) hr1
      rw [h] at hs
      exact hs

/-- `octave_reduce 12 = (3/2, 3)`, computed by unfolding the loop. -/
lemma octave_reduce_twelve : octave_reduce 12 = some (3/2, 3) := by
  have l1 : octaveReduceLoop (3/2 : ℚ) = (3/2, 0) := by
    rw [octaveReduceLoop, dif_neg (by norm_num)]
  have l2 : octaveReduceLoop (3 : ℚ) = (3/2, 1) := by
    rw [octaveReduceLoop, dif_pos (by norm_num : (2 : ℚ) ≤ 3)]
    norm_num [l1]
  have l3 : octaveReduceLoop (6 : ℚ) = (3/2, 2) := by
    rw [octaveReduceLoop, dif_pos (by norm_num : (2 : ℚ) ≤ 6)]
    norm_num [show (6 : ℚ) / 2 = 3 by norm_num, l2]
  have l4 : octaveReduceLoop (12 : ℚ) = (3/2, 3) := by
    rw [octaveReduceLoop, dif_pos (by norm_num : (2 : ℚ) ≤ 12)]
    norm_num [show (12 : ℚ) / 2 = 6 by norm_num, l3]
  unfold octave_reduce
  rw [if_neg (by norm_num), show ((12 : ℤ) : ℚ) = 12 by norm_num, l4]

/-- Witness for C9 at n = 12. -/
theorem C9_octave_reduce_witness :
    octave_reduce 12 = some (3/2, 3) ∧
    (1 ≤ (3/2 : ℚ) ∧ (3/2 : ℚ) < 2 ∧ ((12 : ℤ) : ℚ) = 3/2 * 2 ^ 3) :=
  ⟨octave_reduce_twelve,
    (C9_octave_reduce 12).2.2 (3/2) 3 octave_reduce_twelve⟩

/-- C10: `note_off` on a note that is not active returns `None` and the
tracker — active map, allocation counter, last played note — unchanged. -/
theorem C10_note_off_inactive (t : VoiceTracker) (midi : ℤ)
    (h : findPair t.active_notes midi = none) :
    t.note_off midi = (t, none) := by
  unfold VoiceTracker.note_off
  rw [h]

/-- Witness for C10 on a fresh tracker. -/
theorem C10_note_off_inactive_witness :
    (VoiceTracker.init 64).note_off 60 = (VoiceTracker.init 64, none) :=
  C10_note_off_inactive (VoiceTracker.init 64) 60 rfl

/-- C2 (code as written): `note_on` on a fresh key always allocates
exactly TWO voice ids — the next pool id and its successor modulo
`max_voices` — independent of any caller-supplied voice list (the
function accepts none), and `voice_count` is twice the key count. -/
theorem C2_note_on_pair_code (t : VoiceTracker) (midi : ℤ) (velocity : ℕ)
    (bf pf f1v : ℝ) (n : ℕ) (h : findPair t.active_notes midi = none) :
    (t.note_on midi velocity bf pf f1v n).2 =
      (t.next_voice_id, (t.next_voice_id + 1) % t.max_voices)
    ∧ (t.note_on midi velocity bf pf f1v n).1.voice_count = t.voice_count + 2
    ∧ (t.note_on midi velocity bf pf f1v n).1.active_count = t.active_count + 1
    ∧ (∀ s : VoiceTracker, s.voice_count = 2 * s.active_count) := by
  unfold VoiceTracker.note_on
  rw [h]
  refine ⟨rfl, ?_, ?_, ?_⟩
  · unfold VoiceTracker.voice_count
    simp [VoiceTracker.allocate_voice_id]
    omega
  · unfold VoiceTracker.active_count
    simp [VoiceTracker.allocate_voice_id]
  · intro s
    unfold VoiceTracker.voice_count VoiceTracker.active_count
    ring

/-- Witness for C2 on a fresh tracker: the two ids are 0 and 1. -/
theorem C2_note_on_pair_code_witness :
    ((VoiceTracker.init 64).note_on 60 100 162 81 54 3).2 =
      ((VoiceTracker.init 64).next_voice_id,
        ((VoiceTracker.init 64).next_voice_id + 1) % (VoiceTracker.init 64).max_voices)
    ∧ ((VoiceTracker.init 64).note_on 60 100 162 81 54 3).1.voice_count =
        (VoiceTracker.init 64).voice_count + 2
    ∧ ((VoiceTracker.init 64).note_on 60 100 162 81 54 3).1.active_count =
        (VoiceTracker.init 64).active_count + 1
    ∧ (∀ s : VoiceTracker, s.voice_count = 2 * s.active_count) :=
  C2_note_on_pair_code (VoiceTracker.init 64) 60 100 162 81 54 3 rfl

/-- Witness for the amended C1 at the worked example's key 108. -/
theorem C1_get_match_lowest_witness :
    mapper54.get_match 108 = (mapper54.get_all_matches 108).head?
    ∧ (mapper54.get_all_matches 108).Pairwise
        (fun a b => a.harmonic_n < b.harmonic_n)
    ∧ ∀ m, mapper54.get_match 108 = some m →
        ∀ m2 ∈ mapper54.get_all_matches 108, m.harmonic_n ≤ m2.harmonic_n :=
  C1_get_match_lowest mapper54 108
